import Mathlib

/-!
Verification of the document-quality / identity-classification pipeline.

The Python sources are shallowly embedded: pure functions become Lean
functions, floats become rationals, Python strings become lists of
characters, and the opaque external capabilities (the OCR engine, the
PDF rasterizer, OpenCV image analysis) are modelled as oracle inputs
carrying exactly the data the opaque call would return.  Fallible code
returns Except values; a Python TypeError raised by unpacking a
non-iterable value is modelled explicitly.
-/

/-- Python strings are modelled as lists of characters. -/
abbrev PyStr := List Char

/-- Lowercase a string, mirroring Python str.lower on ASCII data. -/
def strLower (s : PyStr) : PyStr := s.map Char.toLower

/-- Does the first list occur as a leading segment of the second?
Mirrors the prefix test used to implement Python substring search. -/
def leadsStr : PyStr → PyStr → Bool
  | [], _ => true
  | _ :: _, [] => false
  | a :: as, b :: bs => a = b && leadsStr as bs

/-- Python substring containment: needle occursIn hay mirrors
the expression needle in hay on Python strings. -/
def occursIn (needle : PyStr) : PyStr → Bool
  | [] => leadsStr needle []
  | c :: rest => leadsStr needle (c :: rest) || occursIn needle rest

/-- Python str.strip: drop whitespace from both ends. -/
def pyStrip (s : PyStr) : PyStr :=
  ((s.dropWhile Char.isWhitespace).reverse.dropWhile Char.isWhitespace).reverse

/-- Truthiness of text and text.strip combined: the string has at
least one non-whitespace character. -/
def strTruthy (s : PyStr) : Bool := s.any (fun c => !c.isWhitespace)

/-- Python len(s.split()): number of maximal non-whitespace runs. -/
def wordCount (s : PyStr) : ℕ :=
  (s.foldl
    (fun (st : ℕ × Bool) c =>
      if c.isWhitespace then (st.1, false)
      else if st.2 then st else (st.1 + 1, true))
    (0, false)).1

/-- Python int() on a rational value: truncation toward zero. -/
def pyTrunc (q : ℚ) : ℤ := if q < 0 then -(Int.floor (-q)) else Int.floor q

/-- Stable insertion used by stableSortBy: the new element is placed
before the first element it must strictly precede. -/
def ordInsertBy {α : Type} (precedes : α → α → Bool) (b : α) : List α → List α
  | [] => [b]
  | c :: cs => if precedes b c then b :: c :: cs else c :: ordInsertBy precedes b cs

/-- Stable sort mirroring Python sorted: precedes a b holds when a must
come strictly before b (key a < key b for an ascending key sort, or
key a > key b for a reverse sort); equal keys keep input order. -/
def stableSortBy {α : Type} (precedes : α → α → Bool) (l : List α) : List α :=
  l.foldl (fun acc b => ordInsertBy precedes b acc) []

/-- Python max over a sequence of (key, value) pairs taken by value:
returns the first pair attaining the maximal value, as CPython max
replaces the current best only on a strictly greater key. -/
def maxByValFirst (l : List (String × ℕ)) : Option (String × ℕ) :=
  l.foldl
    (fun acc p =>
      match acc with
      | none => some p
      | some q => if q.2 < p.2 then some p else some q)
    none

/-! ## OCR confidence engine (src/checks/confidence_check.py)

The pytesseract image_to_data output is the oracle input: one OcrBox
per detected box, carrying its text and its confidence (none models a
conf entry that float() cannot parse). -/

/-- One box of pytesseract image_to_data output. -/
structure OcrBox where
  text : PyStr
  conf : Option ℚ
deriving DecidableEq, Repr

/-- Per-box value appended by extract_confidences_from_ocr_data:
unparseable confidence gives 0, negative confidence gives 0, a box
with no visible text gives 0, otherwise the confidence itself. -/
def boxConfVal (b : OcrBox) : ℚ :=
  match b.conf with
  | none => 0
  | some c => if c < 0 then 0 else if strTruthy b.text then c else 0

/-- Embedding of _extract_confidences_from_ocr_data: one confidence
value per box, for ALL boxes. -/
def extract_confidences_from_ocr_data (data : List OcrBox) : List ℚ :=
  data.map boxConfVal

/-- sum(l)/len(l) if l else 0, the averaging idiom of the source. -/
def meanOrZero (l : List ℚ) : ℚ := if l = [] then 0 else l.sum / l.length

/-- The single-pass confidence each tier computes from one
image_to_data result: the mean over all boxes of boxConfVal. -/
def ocrPassConf (data : List OcrBox) : ℚ :=
  meanOrZero (extract_confidences_from_ocr_data data)

/-- Embedding of calculate_ocr_confidence_superfast on the success
path: a single OCR pass whose box data is the oracle input. -/
def calculate_ocr_confidence_superfast (ocr_data : List OcrBox) : ℚ :=
  ocrPassConf ocr_data

/-- Embedding of calculate_ocr_confidence_balanced on the success
path.  pass1 is the image_to_data result of the first OCR pass on the
resized image; pass2 is the result the enhanced (blur + adaptive
threshold) pass would return.  The boolean records whether the second
pass was attempted. -/
def calculate_ocr_confidence_balanced (pass1 pass2 : List OcrBox) : ℚ × Bool :=
  let best := ocrPassConf pass1
  if 15 ≤ best then (best, false)
  else if best < 10 then
    let enhanced := ocrPassConf pass2
    (if best < enhanced then enhanced else best, true)
  else (best, false)

/-- The confidence the spec describes, written from the spec words:
the mean of per-token confidence over only the tokens whose trimmed
text is non-empty and whose confidence is valid (non-negative), and 0
when no such token exists.  Used solely to compare against the code. -/
def specMeanValidTokenConfidence (data : List OcrBox) : ℚ :=
  meanOrZero (data.filterMap (fun b =>
    match b.conf with
    | none => none
    | some c => if 0 ≤ c ∧ strTruthy b.text then some c else none))

/-- Spec-side validity filter on a box: trimmed text non-empty and a
parseable non-negative confidence, yielding that confidence. -/
def validTokenConf (b : OcrBox) : Option ℚ :=
  match b.conf with
  | none => none
  | some c => if 0 ≤ c ∧ strTruthy b.text then some c else none

/-! ## Language detection (src/utils/document_processor.py)

detect_document_language counts configured per-language keyword lists
against the artifact-filtered, lowercased text.  The composed regex
substitution of ARTIFACT_PATTERNS is an opaque step and is passed as
the oracle function artifactSub; lang_keywords models the
language_detection_keywords config dict in insertion order. -/

/-- Keyword count of one language: sum(1 for keyword in keywords if
keyword in text_lower).  Note the keyword is matched as configured,
not lowercased. -/
def langMatchCount (keywords : List PyStr) (text_lower : PyStr) : ℕ :=
  (keywords.filter (fun kw => occursIn kw text_lower)).length

/-- Embedding of detect_document_language. -/
def detect_document_language (artifactSub : PyStr → PyStr)
    (lang_keywords : List (String × List PyStr))
    (text_content : PyStr) (primary_language : String) : String :=
  if text_content = [] then primary_language
  else
    let filtered := pyStrip (artifactSub text_content)
    if filtered = [] then primary_language
    else
      let text_lower := strLower filtered
      let lang_scores :=
        (lang_keywords.map (fun p => (p.1, langMatchCount p.2 text_lower))).filter
          (fun p => 0 < p.2)
      match maxByValFirst lang_scores with
      | some p => p.1
      | none => primary_language

/-! ## Cross-document confidence adjustment
(src/modules/identity_detection.py, _apply_frequency_based_adjustment)

All boost values come from config; the BoostSettings structure
flattens the confidence_boost_settings block of config.json (the
quality_factors, specificity_bonus_per_word and consistency_bonus
sub-dicts), with the source's .get defaults as Lean defaults. -/

/-- Flattened confidence_boost_settings configuration. -/
structure BoostSettings where
  triple_plus_match_boost : ℚ := 15
  double_match_boost : ℚ := 10
  single_match_boost : ℚ := 5
  max_specificity_bonus : ℚ := 10
  spec_three_plus_words : ℚ := 3
  spec_two_words : ℚ := 2
  spec_single_word : ℚ := 1
  cons_three_plus_matches : ℚ := 5
  cons_two_matches : ℚ := 3
  poor_ocr_threshold : ℚ := 30
  poor_ocr_factor : ℚ := 1/2
  medium_ocr_threshold : ℚ := 50
  medium_ocr_factor : ℚ := 3/4
  poor_ink_ratio_min : ℚ := 1/20
  poor_ink_ratio_max : ℚ := 4/5
  poor_ink_factor : ℚ := 4/5
  max_confidence_cap : ℚ := 100
deriving DecidableEq, Repr

/-- The classification features _apply_frequency_based_adjustment
reads: keyword-match maps in config insertion order, plus the OCR
confidence and ink ratio stored by feature extraction. -/
structure AdjFeatures where
  document_type_keyword_matches : List (String × Bool)
  document_side_keyword_matches : List (String × Bool)
  ocr_confidence : ℚ
  ink_ratio : ℚ
deriving DecidableEq, Repr

/-- One entry of keyword_frequency for a document type: how many
segments matched it and the set (modelled as a duplicate-free list)
of specific keywords responsible. -/
structure FreqEntry where
  count : ℕ
  specific_keywords : List PyStr
deriving DecidableEq, Repr

/-- The keyword_frequency table restricted to the part the adjustment
reads (the document_types map, in insertion order). -/
structure KeywordFrequency where
  document_types : List (String × FreqEntry)
deriving DecidableEq, Repr

/-- Association-list lookup for the string-keyed dicts. -/
def alookup {β : Type} (l : List (String × β)) (k : String) : Option β :=
  (l.find? (fun p => p.1 = k)).map (·.2)

/-- The adjustment breakdown stored in features for explainability. -/
structure AdjustmentDetails where
  frequency_boost : ℚ
  specificity_bonus : ℚ
  consistency_bonus : ℚ
  quality_factor : ℚ
  total_adjustment : ℚ
  matched_keyword_count : ℕ
  cross_document_matches : ℕ
deriving DecidableEq, Repr

/-- Per-keyword specificity value: 3+/2/1 words as configured. -/
def specificityPerKeyword (cfg : BoostSettings) (kw : PyStr) : ℚ :=
  let wc := wordCount kw
  if 3 ≤ wc then cfg.spec_three_plus_words
  else if wc = 2 then cfg.spec_two_words
  else cfg.spec_single_word

/-- Embedding of _apply_frequency_based_adjustment.  Takes the
pre-adjustment confidence and features of one classification plus the
cross-file frequency table, returns the adjusted confidence and the
adjustment_details record stored in features. -/
def apply_frequency_based_adjustment (cfg : BoostSettings)
    (keyword_frequency : KeywordFrequency)
    (base_confidence : ℚ) (features : AdjFeatures) : ℚ × AdjustmentDetails :=
  let matched_types :=
    (features.document_type_keyword_matches.filter (·.2)).map (·.1)
  let matched_sides :=
    (features.document_side_keyword_matches.filter (·.2)).map (·.1)
  let total_keyword_matches := matched_types.length + matched_sides.length
  let cross_doc_matches := matched_types.foldl
    (fun acc t =>
      match alookup keyword_frequency.document_types t with
      | some e => max acc e.count
      | none => acc) 0
  let frequency_boost : ℚ :=
    if 3 ≤ cross_doc_matches then cfg.triple_plus_match_boost
    else if cross_doc_matches = 2 then cfg.double_match_boost
    else if cross_doc_matches = 1 then cfg.single_match_boost
    else 0
  let specificity_raw : ℚ := matched_types.foldl
    (fun acc t =>
      match alookup keyword_frequency.document_types t with
      | some e => acc + (e.specific_keywords.map (specificityPerKeyword cfg)).sum
      | none => acc) 0
  let specificity_bonus := min specificity_raw cfg.max_specificity_bonus
  let consistency_bonus : ℚ :=
    if 3 ≤ total_keyword_matches then cfg.cons_three_plus_matches
    else if 2 ≤ total_keyword_matches then cfg.cons_two_matches
    else 0
  let qf_ocr : ℚ :=
    if features.ocr_confidence < cfg.poor_ocr_threshold then cfg.poor_ocr_factor
    else if features.ocr_confidence < cfg.medium_ocr_threshold then cfg.medium_ocr_factor
    else 1
  let quality_factor :=
    if features.ink_ratio < cfg.poor_ink_ratio_min ∨
        cfg.poor_ink_ratio_max < features.ink_ratio
    then qf_ocr * cfg.poor_ink_factor else qf_ocr
  let adjustment := (frequency_boost + specificity_bonus + consistency_bonus) * quality_factor
  let new_confidence := min cfg.max_confidence_cap (base_confidence + adjustment)
  (new_confidence,
   { frequency_boost := frequency_boost
     specificity_bonus := specificity_bonus
     consistency_bonus := consistency_bonus
     quality_factor := quality_factor
     total_adjustment := adjustment
     matched_keyword_count := total_keyword_matches
     cross_document_matches := cross_doc_matches })

/-! ## Heuristic corrector
(src/modules/identity_detection.py, _apply_classification_heuristics)

The hand-curated keyword lists are hardcoded in the source and copied
verbatim.  The first pass of the corrector re-assigns the document
side of each classification from its text content alone; it is
embedded as heuristicSideUpdate acting on one classification's text
and current side. -/

/-- Document side enum of identity_detection.py. -/
inductive DocumentSide where
  | FRONT
  | BACK
  | BOTH
  | UNKNOWN
deriving DecidableEq, Repr

/-- Document type enum of identity_detection.py. -/
inductive DocumentType where
  | RESIDENTIAL_ID
  | AADHAAR
  | UNKNOWN
deriving DecidableEq, Repr

/-- The hand-curated back-side keyword list of
analyze_document_content. -/
def heuristic_back_keywords : List PyStr :=
  ["firma", "signature", "scadenza", "expiry", "valid until", "issued by",
   "rilasciato", "sigillo", "timbro", "qr code", "barcode", "mrz",
   "rilascio", "questura", "luogo d", "place of birth"].map String.toList

/-- The hand-curated front-side keyword list of
analyze_document_content. -/
def heuristic_front_keywords : List PyStr :=
  ["identity card", "carta d", "nome", "cognome", "name", "surname",
   "data di nascita", "date of birth", "luogo di nascita", "place of birth",
   "foto", "photo", "immagine", "image", "sesso", "gender", "cittadinanza",
   "nationality", "genere", "domicilio", "residenza"].map String.toList

/-- The content_analysis record computed per classification. -/
structure ContentAnalysis where
  has_mrz : Bool
  has_back_keywords : Bool
  has_front_keywords : Bool
  mrz_score : ℕ
  back_score : ℕ
  front_score : ℕ
deriving DecidableEq, Repr

/-- Embedding of analyze_document_content. -/
def analyze_document_content (text : PyStr) : ContentAnalysis :=
  let text_lower := strLower text
  let mrz_score := (text.filter (fun c => c = '<')).length
  { has_mrz := text.any (fun c => c = '<') && decide (5 ≤ mrz_score)
    has_back_keywords := heuristic_back_keywords.any (fun kw => occursIn kw text_lower)
    has_front_keywords := heuristic_front_keywords.any (fun kw => occursIn kw text_lower)
    mrz_score := mrz_score
    back_score := (heuristic_back_keywords.filter (fun kw => occursIn kw text_lower)).length
    front_score := (heuristic_front_keywords.filter (fun kw => occursIn kw text_lower)).length }

/-- First pass of _apply_classification_heuristics for one
classification: the side assignment from content markers, in source
branch order.  current is the side the classifier had assigned; it is
kept when no branch fires. -/
def heuristicSideUpdate (text : PyStr) (current : DocumentSide) : DocumentSide :=
  let a := analyze_document_content text
  if a.has_mrz then DocumentSide.BACK
  else if a.has_back_keywords && decide (a.front_score ≤ a.back_score) then
    DocumentSide.BACK
  else if a.has_front_keywords && decide (a.back_score < a.front_score) then
    DocumentSide.FRONT
  else if a.has_front_keywords then
    (if text.length < 200 then DocumentSide.FRONT else DocumentSide.BACK)
  else current

/-! ## Python tuple-unpacking model and the per-page pipeline
(src/checks/clarity_check.py, src/utils/document_processor.py,
src/modules/identity_detection.py)

calculate_ink_ratio in checks/clarity_check.py returns a bare float,
while its callers write ink_ratio, _ = calculate_ink_ratio(...); in
Python, unpacking a float raises TypeError.  PyVal models the values
flowing through those call sites and unpack2 models the 2-tuple
unpacking statement. -/

/-- A Python runtime value at the relevant call sites. -/
inductive PyVal where
  | pyFloat (q : ℚ)
  | pyPair (a b : PyVal)
deriving DecidableEq, Repr

/-- The Python exceptions the embedding distinguishes. -/
inductive PyErr where
  | typeError
  | nameError
deriving DecidableEq, Repr

/-- Python a, b = v: succeeds only on a 2-tuple, otherwise raises
TypeError (cannot unpack non-iterable value). -/
def unpack2 : PyVal → Except PyErr (PyVal × PyVal)
  | PyVal.pyPair a b => Except.ok (a, b)
  | _ => Except.error PyErr.typeError

/-- Coerce a PyVal to the float it carries (0 as a harmless default
for the pair case, which never reaches a float position). -/
def pyToFloat : PyVal → ℚ
  | PyVal.pyFloat q => q
  | PyVal.pyPair _ _ => 0

/-- An input raster image together with the values the opaque
OpenCV / pytesseract calls would produce on it: the Otsu ink ratio,
the fast-tier OCR confidence, and the fast-tier extracted text. -/
structure ImageData where
  inkRatio : ℚ
  ocrConfFast : ℚ
  textFast : PyStr
deriving DecidableEq, Repr

/-- Embedding of checks.clarity_check.calculate_ink_ratio: returns a
single float (the Otsu ink ratio of the image), not a tuple. -/
def calculate_ink_ratio (image : ImageData) : PyVal :=
  PyVal.pyFloat image.inkRatio

/-- Embedding of checks.confidence_check.calculate_ocr_confidence as
seen by the pipeline callers (mode fast): returns the 2-tuple
(confidence, calculation_time); wall-clock time is modelled as 0. -/
def calculate_ocr_confidence_pipeline (image : ImageData) : PyVal :=
  PyVal.pyPair (PyVal.pyFloat image.ocrConfFast) (PyVal.pyFloat 0)

/-- The ocr_settings configuration used by extract_page_data,
including the language_detection_keywords dict. -/
structure OcrSettingsCfg where
  primary_language : String := "ita"
  auto_detect : Bool := true
  lang_keywords : List (String × List PyStr) := []

/-- One entry of the list returned by extract_page_data.  The
synthetic empty-PDF record stores image None and has no
detected_language key; hasImage and the Option model that. -/
structure PageData where
  page : ℕ
  ink_ratio : ℚ
  ocr_conf : ℚ
  hasImage : Bool
  text_content : PyStr
  detected_language : Option String
deriving DecidableEq, Repr

/-- Per-page body of the extract_page_data loop: first-pass text
extraction (extract_text_content returns a 2-tuple and unpacks fine),
language detection, then the quality metrics.  The statement
ink_ratio, _ = calculate_ink_ratio(pil_img) unpacks a bare float and
raises TypeError. -/
def processPage (cfg : OcrSettingsCfg) (artifactSub : PyStr → PyStr)
    (image : ImageData) (page_num : ℕ) : Except PyErr PageData := do
  let text_content := image.textFast
  let doc_lang :=
    if cfg.auto_detect then
      detect_document_language artifactSub cfg.lang_keywords text_content
        cfg.primary_language
    else cfg.primary_language
  let (inkV, _) ← unpack2 (calculate_ink_ratio image)
  let (ocrV, _) ← unpack2 (calculate_ocr_confidence_pipeline image)
  pure { page := page_num + 1
         ink_ratio := pyToFloat inkV
         ocr_conf := pyToFloat ocrV
         hasImage := true
         text_content := text_content
         detected_language := some doc_lang }

/-- Lowercased .pdf suffix check: file_name.lower().endswith(".pdf"). -/
def endsWithPdf (file_name : PyStr) : Bool :=
  leadsStr (String.toList ".pdf").reverse (strLower file_name).reverse

/-- The synthetic record produced for a PDF with zero pages. -/
def emptyPdfRecord : PageData :=
  { page := 1, ink_ratio := 0, ocr_conf := 0, hasImage := false
    text_content := [], detected_language := none }

/-- Embedding of extract_page_data.  The PDF rasterizer is an
external capability: pdfPages is the page-image sequence decoding the
file bytes would produce, and imageFile the single decoded image used
when the name does not end in .pdf.  The returned extraction times
are wall-clock values and are not modelled. -/
def extract_page_data (cfg : OcrSettingsCfg) (artifactSub : PyStr → PyStr)
    (file_name : PyStr) (pdfPages : List ImageData) (imageFile : ImageData) :
    Except PyErr (List PageData) :=
  if endsWithPdf file_name then
    if pdfPages = [] then Except.ok [emptyPdfRecord]
    else pdfPages.enum.mapM (fun p => processPage cfg artifactSub p.2 p.1)
  else do
    let r ← processPage cfg artifactSub imageFile 0
    pure [r]

/-! ## Per-segment identity classification
(src/modules/identity_detection.py, classify_identity_document)

Document type/side keyword definitions come from config: for each
type or side key, a dict from language key to keyword list, in
insertion order. -/

/-- Keyword groups of one document type or side: language key to
keyword list. -/
abbrev KeywordGroups := List (String × List PyStr)

/-- The config-driven keyword tables the detector reads. -/
structure TypeSideConfig where
  document_type_keywords : List (String × KeywordGroups)
  document_side_keywords : List (String × KeywordGroups)

/-- The side_detection_weights configuration block, with the source
defaults. -/
structure SideWeights where
  en_weight : ℚ := 2
  other_weight : ℚ := 1
  feature_weight : ℚ := 3
  moderate_ocr_min : ℚ := 30
  moderate_ocr_max : ℚ := 70
  moderate_ocr_side_multiplier : ℚ := 3/2
deriving DecidableEq, Repr

/-- Embedding of _has_keywords: any keyword of any language group,
lowercased, occurs in the lowercased text. -/
def has_keywords (text : PyStr) (keyword_groups : KeywordGroups) : Bool :=
  let text_lower := strLower text
  keyword_groups.any (fun g => g.2.any (fun kw => occursIn (strLower kw) text_lower))

/-- The features dict computed by _extract_features, restricted to
the keys later stages read. -/
structure Features where
  ink_ratio : ℚ
  ocr_confidence : ℚ
  text_length : ℕ
  word_count : ℕ
  type_matches : List (String × Bool)
  side_matches : List (String × Bool)
deriving DecidableEq, Repr

/-- Embedding of _extract_features.  Its first statement,
ink_ratio, _ = calculate_ink_ratio(image), unpacks the bare float
returned by checks.clarity_check.calculate_ink_ratio and therefore
raises TypeError before any feature is produced. -/
def extract_features (cfg : TypeSideConfig) (image : ImageData)
    (text_content : PyStr) : Except PyErr Features := do
  let (inkV, _) ← unpack2 (calculate_ink_ratio image)
  let (ocrV, _) ← unpack2 (calculate_ocr_confidence_pipeline image)
  pure { ink_ratio := pyToFloat inkV
         ocr_confidence := pyToFloat ocrV
         text_length := text_content.length
         word_count := wordCount text_content
         type_matches := cfg.document_type_keywords.map
           (fun p => (p.1, has_keywords text_content p.2))
         side_matches := cfg.document_side_keywords.map
           (fun p => (p.1, has_keywords text_content p.2)) }

/-- Count of keywords of one language group occurring (lowercased) in
the lowercased text. -/
def kwHitCount (text_lower : PyStr) (keywords : List PyStr) : ℕ :=
  (keywords.filter (fun kw => occursIn (strLower kw) text_lower)).length

/-- Embedding of _classify_document_type: per-type score
2*(en hits) + 1*(other hits) + 3*(feature flag), best strictly
positive score wins with first-seen tie-break, then the key is mapped
through the DocumentType enum (unrecognized keys fall to UNKNOWN). -/
def classify_document_type (cfg : TypeSideConfig) (text_content : PyStr)
    (features : Features) : DocumentType :=
  let text_lower := strLower text_content
  let best := cfg.document_type_keywords.foldl
    (fun (acc : Option String × ℕ) p =>
      let en := (alookup p.2 "en").getD []
      let other := (alookup p.2 "other").getD []
      let score := 2 * kwHitCount text_lower en + kwHitCount text_lower other +
        (if (alookup features.type_matches p.1).getD false then 3 else 0)
      if acc.2 < score then (some p.1, score) else acc)
    (none, 0)
  match best with
  | (some "residential_id", _) => DocumentType.RESIDENTIAL_ID
  | (some "aadhaar", _) => DocumentType.AADHAAR
  | (some "unknown", _) => DocumentType.UNKNOWN
  | _ => DocumentType.UNKNOWN

/-- Strong front-side tie-break phrases of _classify_document_side. -/
def strong_front_phrases : List PyStr :=
  ["luogo di nascita", "luogo d", "nome e cognome", "sesso", "cittadinanza",
   "numero di"].map String.toList

/-- Strong back-side tie-break phrases of _classify_document_side. -/
def strong_back_phrases : List PyStr :=
  ["firma", "scadenza", "valido", "codice qr", "qr code", "mrz"].map String.toList

/-- Embedding of _classify_document_side: weighted per-side scores
with the moderate-OCR multiplier, then the dominance / tie-break
cascade of the source. -/
def classify_document_side (cfg : TypeSideConfig) (w : SideWeights)
    (text_content : PyStr) (features : Features) : DocumentSide :=
  let text_lower := strLower text_content
  let apply_mul :=
    w.moderate_ocr_min ≤ features.ocr_confidence ∧
      features.ocr_confidence ≤ w.moderate_ocr_max
  let m : ℚ := if apply_mul then w.moderate_ocr_side_multiplier else 1
  let side_scores := cfg.document_side_keywords.map (fun p =>
    let en := (alookup p.2 "en").getD []
    let other := (alookup p.2 "other").getD []
    let score : ℚ :=
      (kwHitCount text_lower en : ℚ) * (w.en_weight * m) +
      (kwHitCount text_lower other : ℚ) * (w.other_weight * m) +
      (if (alookup features.side_matches p.1).getD false then w.feature_weight * m else 0)
    (p.1, score))
  let front_score := ((side_scores.find? (fun p => p.1 = "front")).map (·.2)).getD 0
  let back_score := ((side_scores.find? (fun p => p.1 = "back")).map (·.2)).getD 0
  if 0 < front_score ∧ 0 < back_score then
    let score_diff_percent :=
      |front_score - back_score| / max front_score back_score * 100
    if 10 < score_diff_percent then
      (if back_score < front_score then DocumentSide.FRONT else DocumentSide.BACK)
    else
      let has_strong_front := strong_front_phrases.any (fun p => occursIn p text_lower)
      let has_strong_back := strong_back_phrases.any (fun p => occursIn p text_lower)
      if has_strong_front && !has_strong_back then DocumentSide.FRONT
      else if has_strong_back && !has_strong_front then DocumentSide.BACK
      else DocumentSide.FRONT
  else if 0 < front_score then DocumentSide.FRONT
  else if 0 < back_score then DocumentSide.BACK
  else DocumentSide.UNKNOWN

/-- Embedding of _calculate_classification_confidence. -/
def calculate_classification_confidence (features : Features)
    (doc_type : DocumentType) (doc_side : DocumentSide) : ℚ :=
  let c0 := features.ocr_confidence * (3/10)
  let c1 := c0 +
    (if doc_type = DocumentType.RESIDENTIAL_ID ∧
        (alookup features.type_matches "residential_id").getD false then 30
     else if doc_type = DocumentType.AADHAAR ∧
        (alookup features.type_matches "aadhaar").getD false then 30
     else 0)
  let c2 := c1 +
    (if (doc_side = DocumentSide.FRONT ∨ doc_side = DocumentSide.BOTH) ∧
        (alookup features.side_matches "front").getD false then 25 else 0) +
    (if (doc_side = DocumentSide.BACK ∨ doc_side = DocumentSide.BOTH) ∧
        (alookup features.side_matches "back").getD false then 25 else 0)
  let c3 := c2 +
    (if 1/20 ≤ features.ink_ratio ∧ features.ink_ratio ≤ 4/5 then 15
     else if features.ink_ratio < 1/100 then -20
     else if 9/10 < features.ink_ratio then -10
     else 0)
  let c4 := c3 +
    (if 50 ≤ features.text_length ∧ features.text_length ≤ 2000 then 10
     else if features.text_length = 0 then -30
     else 0)
  max 0 (min 100 c4)

/-- The classification record produced per segment. -/
structure IdentityCardClassification where
  page_number : String
  document_type : DocumentType
  document_side : DocumentSide
  confidence : ℚ
  text_content : PyStr
  features : Features
deriving DecidableEq, Repr

/-- Embedding of classify_identity_document: feature extraction, then
type, side and confidence.  Feature extraction raises TypeError on
its first statement, so the whole pipeline errors out. -/
def classify_identity_document (cfg : TypeSideConfig) (w : SideWeights)
    (image : ImageData) (text_content : PyStr) (page_number : String) :
    Except PyErr IdentityCardClassification := do
  let features ← extract_features cfg image text_content
  let doc_type := classify_document_type cfg text_content features
  let doc_side := classify_document_side cfg w text_content features
  let confidence := calculate_classification_confidence features doc_type doc_side
  pure { page_number := page_number
         document_type := doc_type
         document_side := doc_side
         confidence := confidence
         text_content := text_content
         features := features }

/-! ## Document segmentation (src/modules/document_segmentation.py)

The OpenCV calls are opaque pixel-level operations and enter the
embedding as oracle data: each cv2.findContours candidate carries the
cv2.boundingRect box (non-negative ints) and the cv2.contourArea
value; the binarized page used by the projection fallbacks enters as
a boolean matrix (true = foreground after the conditional inversion);
the Canny/approxPolyDP fallback candidates carry their bounding box,
contour area and vertex count. -/

/-- Bounding box of a contour: cv2.boundingRect output. -/
structure NBox where
  x : ℕ
  y : ℕ
  w : ℕ
  h : ℕ
deriving DecidableEq, Repr

/-- A findContours candidate: bounding box plus cv2.contourArea. -/
structure CtContour where
  x : ℕ
  y : ℕ
  w : ℕ
  h : ℕ
  area : ℚ
deriving DecidableEq, Repr

/-- A Canny/approxPolyDP fallback candidate: bounding box of the
approximated polygon, contour area and number of polygon vertices. -/
structure EdgeContour where
  x : ℕ
  y : ℕ
  w : ℕ
  h : ℕ
  area : ℚ
  approx_len : ℕ
deriving DecidableEq, Repr

/-- A bbox in source-page pixel coordinates; the adjustment pass can
produce negative heights, hence integer components. -/
structure IBox where
  x : ℤ
  y : ℤ
  w : ℤ
  h : ℤ
deriving DecidableEq, Repr

/-- A segmented document: bounding box and confidence (the cropped
image is determined by the bbox and is not modelled separately). -/
structure DocumentSegment where
  bbox : IBox
  confidence : ℚ
deriving DecidableEq, Repr

/-- The detection_settings configuration block with source defaults. -/
structure DetectCfg where
  min_document_area_percent : ℚ := 5
  max_document_area_percent : ℚ := 80
  min_aspect_ratio : ℚ := 7/5
  max_aspect_ratio : ℚ := 2
  padding_percent : ℚ := 5
deriving DecidableEq, Repr

/-- IoU of two candidate boxes, as computed by calculate_iou. -/
def calculate_iou (c1 c2 : NBox) : ℚ :=
  let xi1 : ℤ := max c1.x c2.x
  let yi1 : ℤ := max c1.y c2.y
  let xi2 : ℤ := min (c1.x + c1.w) (c2.x + c2.w)
  let yi2 : ℤ := min (c1.y + c1.h) (c2.y + c2.h)
  let inter_area := max 0 (xi2 - xi1) * max 0 (yi2 - yi1)
  let union_area : ℤ := c1.w * c1.h + c2.w * c2.h - inter_area
  if 0 < union_area then (inter_area : ℚ) / (union_area : ℚ) else 0

/-- Horizontal and vertical separation gaps of get_separation. -/
def get_separation (c1 c2 : NBox) : ℕ × ℕ :=
  let h_sep :=
    if c1.x + c1.w < c2.x then c2.x - (c1.x + c1.w)
    else if c2.x + c2.w < c1.x then c1.x - (c2.x + c2.w)
    else 0
  let v_sep :=
    if c1.y + c1.h < c2.y then c2.y - (c1.y + c1.h)
    else if c2.y + c2.h < c1.y then c1.y - (c2.y + c2.h)
    else 0
  (h_sep, v_sep)

/-- The rejection test of the greedy loop: IoU above the threshold,
or physically touching/overlapping (both separations zero). -/
def overlapsKept (iou_threshold : ℚ) (c s : NBox) : Bool :=
  decide (iou_threshold < calculate_iou c s) ||
    (decide ((get_separation c s).1 = 0) && decide ((get_separation c s).2 = 0))

/-- Greedy keep loop of remove_overlapping_contours: kept grows by
appending each candidate that does not overlap any kept one. -/
def removeLoop (iou_threshold : ℚ) : List NBox → List NBox → List NBox
  | [], kept => kept
  | c :: rest, kept =>
    if kept.any (overlapsKept iou_threshold c) then removeLoop iou_threshold rest kept
    else removeLoop iou_threshold rest (kept ++ [c])

/-- Embedding of remove_overlapping_contours: sort by w*h area
descending (stable) and keep greedily. -/
def remove_overlapping_contours (contours : List NBox)
    (iou_threshold : ℚ := 3/10) : List NBox :=
  if contours.length ≤ 1 then contours
  else
    let sorted_contours :=
      stableSortBy (fun a b => b.w * b.h < a.w * a.h) contours
    removeLoop iou_threshold sorted_contours []

/-- Pad a surviving contour box by padding_percent on each side,
clamped to page bounds, giving the segment bbox. -/
def padContour (cfg : DetectCfg) (W H : ℕ) (c : NBox) : IBox :=
  let pp := cfg.padding_percent / 100
  let pad_x := pyTrunc ((c.w : ℚ) * pp)
  let pad_y := pyTrunc ((c.h : ℚ) * pp)
  let x_start := max 0 ((c.x : ℤ) - pad_x)
  let y_start := max 0 ((c.y : ℤ) - pad_y)
  let x_end := min (W : ℤ) ((c.x : ℤ) + c.w + pad_x)
  let y_end := min (H : ℤ) ((c.y : ℤ) + c.h + pad_y)
  { x := x_start, y := y_start, w := x_end - x_start, h := y_end - y_start }

/-- The consecutive-pair adjustment loop of _fix_overlapping_bboxes:
wherever a segment's bottom overlaps the next segment's top, the
split point lands at the middle of the overlap; each iteration reads
the already-adjusted current box and the original next box. -/
def adjustSegPairsAux (cur : DocumentSegment) :
    List DocumentSegment → List DocumentSegment
  | [] => [cur]
  | s2 :: rest =>
    let b1 := cur.bbox
    let b2 := s2.bbox
    if b2.y < b1.y + b1.h then
      let overlap := b1.y + b1.h - b2.y
      let split_point := b1.y + (b1.h - overlap.fdiv 2)
      let cur' := { cur with bbox := { b1 with h := split_point - b1.y } }
      let s2' := { s2 with bbox := { b2 with y := split_point, h := b2.y + b2.h - split_point } }
      cur' :: adjustSegPairsAux s2' rest
    else cur :: adjustSegPairsAux s2 rest

/-- The full adjustment loop over the y-sorted segment list. -/
def adjustSegPairs : List DocumentSegment → List DocumentSegment
  | [] => []
  | s :: rest => adjustSegPairsAux s rest

/-- Re-extraction step of _fix_overlapping_bboxes: drop boxes with
width or height not exceeding 20, clamp the rest to page bounds. -/
def reextractSeg (W H : ℕ) (s : DocumentSegment) : Option DocumentSegment :=
  let b := s.bbox
  if 20 < b.w ∧ 20 < b.h then
    let x := max 0 (min b.x ((W : ℤ) - 1))
    let y := max 0 (min b.y ((H : ℤ) - 1))
    let x_end := min (x + b.w) (W : ℤ)
    let y_end := min (y + b.h) (H : ℤ)
    some { bbox := { x := x, y := y, w := x_end - x, h := y_end - y }
           confidence := s.confidence }
  else none

/-- Embedding of _fix_overlapping_bboxes. -/
def fix_overlapping_bboxes (W H : ℕ) (segments : List DocumentSegment) :
    List DocumentSegment :=
  if segments.length ≤ 1 then segments
  else
    ((adjustSegPairs (stableSortBy (fun a b => a.bbox.y < b.bbox.y) segments)).filterMap
      (reextractSeg W H))

/-- Number of foreground pixels in row i of the binarized page. -/
def rowSum (bw : List (List Bool)) (i : ℕ) : ℕ :=
  ((bw.getD i []).filter id).length

/-- Number of foreground pixels in column j of the binarized page. -/
def colSum (bw : List (List Bool)) (j : ℕ) : ℕ :=
  ((bw.filter (fun row => row.getD j false)).length)

/-- Decompose an ascending index list into maximal runs of
consecutive values, mirroring np.split at the jumps of np.diff. -/
def consRuns : List ℕ → List (List ℕ)
  | [] => []
  | [x] => [[x]]
  | x :: y :: rest =>
    match consRuns (y :: rest) with
    | [] => [[x]]
    | r :: rs => if y = x + 1 then (x :: r) :: rs else [x] :: r :: rs

/-- Python max with a key function over a list: the first element
attaining the maximal key. -/
def chooseMaxBy {α : Type} (f : α → ℕ) (l : List α) : Option α :=
  l.foldl
    (fun acc g =>
      match acc with
      | none => some g
      | some b => if f b < f g then some g else acc)
    none

/-- Split-point selection shared by the two projection fallbacks:
the mean index of the largest run of consecutive low indices, gated
on that run spanning enough of the page dimension. -/
def projectionSplit (low_idx : List ℕ) (dim : ℕ) : Option ℕ :=
  match chooseMaxBy List.length (consRuns low_idx) with
  | none => none
  | some largest_gap =>
    if largest_gap.length < max 3 (pyTrunc ((3/100 : ℚ) * dim)).toNat then none
    else some (largest_gap.sum / largest_gap.length)

/-- Embedding of _segment_by_horizontal_projection: find the largest
run of near-empty rows, require it to span enough of the page height,
and split into top and bottom segments around its mean row. -/
def segment_by_horizontal_projection (bw : List (List Bool)) (W H : ℕ) :
    List DocumentSegment :=
  let row_sums := (List.range H).map (rowSum bw)
  let max_row := row_sums.foldl max 0
  if max_row = 0 then []
  else
    let threshold := max 5 (pyTrunc ((5/100 : ℚ) * max_row)).toNat
    let low_rows := (List.range H).filter (fun i => rowSum bw i < threshold)
    if low_rows = [] then []
    else
      match projectionSplit low_rows H with
      | none => []
      | some split_row =>
        let pad_y := H / 100
        let top_y1 := split_row - pad_y
        let bot_y0 := min H (split_row + pad_y)
        ([(0, top_y1), (bot_y0, H)].filterMap (fun p =>
          if p.2 - p.1 ≤ 10 then none
          else some { bbox := { x := 0, y := (p.1 : ℤ), w := (W : ℤ),
                                h := (p.2 : ℤ) - (p.1 : ℤ) }
                      confidence := (3/5 : ℚ) }))

/-- Embedding of _segment_by_vertical_projection: the symmetric split
on columns for side-by-side documents. -/
def segment_by_vertical_projection (bw : List (List Bool)) (W H : ℕ) :
    List DocumentSegment :=
  let col_sums := (List.range W).map (colSum bw)
  let max_col := col_sums.foldl max 0
  if max_col = 0 then []
  else
    let threshold := max 5 (pyTrunc ((5/100 : ℚ) * max_col)).toNat
    let low_cols := (List.range W).filter (fun j => colSum bw j < threshold)
    if low_cols = [] then []
    else
      match projectionSplit low_cols W with
      | none => []
      | some split_col =>
        let pad_x := W / 100
        let left_x1 := split_col - pad_x
        let right_x0 := min W (split_col + pad_x)
        ([(0, left_x1), (right_x0, W)].filterMap (fun p =>
          if p.2 - p.1 ≤ 10 then none
          else some { bbox := { x := (p.1 : ℤ), y := 0,
                                w := (p.2 : ℤ) - (p.1 : ℤ), h := (H : ℤ) }
                      confidence := (3/5 : ℚ) }))

/-- Embedding of _segment_with_edge_detection.  It receives the
already-absolute min_area and max_area from the caller and multiplies
them by total_area again, exactly as the source does. -/
def segment_with_edge_detection (cfg : DetectCfg) (W H : ℕ)
    (edge_contours : List EdgeContour) : List DocumentSegment :=
  let total_area : ℚ := ((W * H : ℕ) : ℚ)
  let min_area := total_area * (cfg.min_document_area_percent / 100)
  let max_area := total_area * (cfg.max_document_area_percent / 100)
  let segments := edge_contours.filterMap (fun c =>
    if c.area < total_area * min_area ∨ total_area * max_area < c.area then none
    else if c.approx_len < 4 then none
    else
      let aspect : ℚ := if 0 < c.h then (c.w : ℚ) / (c.h : ℚ) else 0
      if cfg.min_aspect_ratio < aspect ∧ aspect < cfg.max_aspect_ratio then
        some { bbox := padContour cfg W H { x := c.x, y := c.y, w := c.w, h := c.h }
               confidence := (9/10 : ℚ) }
      else none)
  stableSortBy (fun a b => a.bbox.x < b.bbox.x) segments

/-- The size/aspect contour filter of segment_documents_on_page:
candidates whose contour area lies strictly within the configured
area band and whose bounding-box aspect ratio lies strictly within
the configured aspect band. -/
def contourCandidates (cfg : DetectCfg) (W H : ℕ)
    (contours : List CtContour) : List NBox :=
  let total_area : ℚ := ((W * H : ℕ) : ℚ)
  let min_area := total_area * (cfg.min_document_area_percent / 100)
  let max_area := total_area * (cfg.max_document_area_percent / 100)
  contours.filterMap (fun c =>
    let aspect : ℚ := if 0 < c.h then (c.w : ℚ) / (c.h : ℚ) else 0
    if min_area < c.area ∧ c.area < max_area ∧
        cfg.min_aspect_ratio < aspect ∧ aspect < cfg.max_aspect_ratio then
      some ({ x := c.x, y := c.y, w := c.w, h := c.h } : NBox)
    else none)

/-- The contour path before overlap adjustment: size/aspect filter,
left-to-right sort, greedy overlap removal, padding. -/
def segmentedFromContours (cfg : DetectCfg) (W H : ℕ)
    (contours : List CtContour) : List DocumentSegment :=
  (remove_overlapping_contours
    (stableSortBy (fun a b => a.x < b.x) (contourCandidates cfg W H contours))
    (3/10)).map
    (fun c => ({ bbox := padContour cfg W H c, confidence := 1 } : DocumentSegment))

/-- The contour path after the overlap-adjustment pass, which runs
only when more than one segment was produced. -/
def segmentedAdjusted (cfg : DetectCfg) (W H : ℕ)
    (contours : List CtContour) : List DocumentSegment :=
  if 1 < (segmentedFromContours cfg W H contours).length then
    fix_overlapping_bboxes W H (segmentedFromContours cfg W H contours)
  else segmentedFromContours cfg W H contours

/-- Embedding of segment_documents_on_page.  contours, bw and
edge_contours are the oracle outputs of the opaque OpenCV steps on
the page image; W and H are the page dimensions.  When the raw
contour list is empty and both projection fallbacks fail, the source
reads the loop-local min_area variable that was never bound and
raises NameError. -/
def segment_documents_on_page (cfg : DetectCfg) (W H : ℕ)
    (contours : List CtContour) (bw : List (List Bool))
    (edge_contours : List EdgeContour) :
    Except PyErr (List DocumentSegment) :=
  if segmentedAdjusted cfg W H contours = [] then
    match segment_by_horizontal_projection bw W H with
    | s :: ss => Except.ok (s :: ss)
    | [] =>
      match segment_by_vertical_projection bw W H with
      | s :: ss => Except.ok (s :: ss)
      | [] =>
        if contours = [] then Except.error PyErr.nameError
        else
          match segment_with_edge_detection cfg W H edge_contours with
          | s :: ss => Except.ok (s :: ss)
          | [] => Except.ok
              [{ bbox := { x := 0, y := 0, w := (W : ℤ), h := (H : ℤ) }
                 confidence := 1 }]
  else Except.ok (segmentedAdjusted cfg W H contours)

/-- The in-bounds property of a segment bbox claimed by the spec. -/
def bboxInBounds (W H : ℕ) (b : IBox) : Prop :=
  0 ≤ b.x ∧ 0 ≤ b.y ∧ b.x + b.w ≤ (W : ℤ) ∧ b.y + b.h ≤ (H : ℤ)

/-- Two bboxes overlap when their interiors intersect in both axes. -/
def boxesOverlap (b1 b2 : IBox) : Bool :=
  decide (max b1.x b2.x < min (b1.x + b1.w) (b2.x + b2.w)) &&
    decide (max b1.y b2.y < min (b1.y + b1.h) (b2.y + b2.h))

/-- The positive-gap condition of the greedy overlap filter. -/
def posGap (c1 c2 : NBox) : Prop :=
  0 < (get_separation c1 c2).1 ∨ 0 < (get_separation c1 c2).2

/-! ## Concrete inputs used by the counterexamples and witnesses -/

/-- A permissive detection configuration (all values are legal config
inputs): generous area and aspect bounds, 10 percent padding. -/
def exDetectCfg : DetectCfg :=
  { min_document_area_percent := 1/100
    max_document_area_percent := 99
    min_aspect_ratio := 1/10
    max_aspect_ratio := 10
    padding_percent := 10 }

/-- Tall candidate on the left of a 2000 x 2000 page. -/
def exContourA : CtContour := { x := 100, y := 100, w := 500, h := 800, area := 300000 }

/-- Small candidate on the right, vertically between A and C. -/
def exContourB : CtContour := { x := 800, y := 902, w := 100, h := 20, area := 1000 }

/-- Tall candidate below A, satisfying the pairwise positive-gap
requirement against both A and B before padding. -/
def exContourC : CtContour := { x := 100, y := 1010, w := 500, h := 800, area := 300000 }

/-- The first segment the counterexample run returns. -/
def exSegTop : DocumentSegment :=
  { bbox := { x := 50, y := 20, w := 600, h := 920 }, confidence := 1 }

/-- The second segment the counterexample run returns. -/
def exSegBottom : DocumentSegment :=
  { bbox := { x := 50, y := 930, w := 600, h := 960 }, confidence := 1 }

/-- Boost settings identical to the source defaults except for a
configured max_confidence_cap of 40 (a legal config value). -/
def exBoostCfg : BoostSettings := { max_confidence_cap := 40 }

/-- Features of a classification matching the residential_id type
with good OCR and ink quality. -/
def exAdjFeatures : AdjFeatures :=
  { document_type_keyword_matches := [("residential_id", true)]
    document_side_keyword_matches := []
    ocr_confidence := 90
    ink_ratio := 1/10 }

/-- A frequency table in which residential_id matched one segment via
the single keyword carta. -/
def exKeywordFrequency : KeywordFrequency :=
  { document_types :=
      [("residential_id", { count := 1, specific_keywords := [String.toList "carta"] })] }

/-- The positive-count language score list detect_document_language
builds internally (the lang_scores dict in insertion order). -/
def langScoresPositive (artifactSub : PyStr → PyStr)
    (lang_keywords : List (String × List PyStr)) (text_content : PyStr) :
    List (String × ℕ) :=
  (lang_keywords.map (fun p =>
    (p.1, langMatchCount p.2 (strLower (pyStrip (artifactSub text_content)))))).filter
    (fun p => 0 < p.2)

/-! ## Theorems -/

/-- Letter a is not whitespace (used to evaluate concrete examples). -/
theorem char_a_not_ws : ('a'.isWhitespace = false) := by decide

/-- Letter b is not whitespace (used to evaluate concrete examples). -/
theorem char_b_not_ws : ('b'.isWhitespace = false) := by decide

/-- The source's averaging idiom on a non-empty list is the plain
mean. -/
theorem meanOrZero_cons (a : ℚ) (l : List ℚ) :
    meanOrZero (a :: l) = (a :: l).sum / ((a :: l).length : ℚ) := by
  rw [meanOrZero, if_neg (List.cons_ne_nil _ _)]

/-- The per-box value the code appends equals the spec-side valid
token confidence when one exists and 0 otherwise. -/
theorem boxConfVal_eq_validTokenConf (b : OcrBox) :
    boxConfVal b = (validTokenConf b).getD 0 := by
  unfold boxConfVal validTokenConf
  cases b.conf with
  | none => rfl
  | some c =>
    dsimp only
    split_ifs with h1 h2 h3 h4 <;> simp_all <;> linarith

/-- Summing the code's per-box values equals summing the spec-side
valid token confidences: invalid and empty-text boxes contribute 0. -/
theorem sum_boxConfVal_eq_sum_valid (data : List OcrBox) :
    (data.map boxConfVal).sum = (data.filterMap validTokenConf).sum := by
  induction data with
  | nil => rfl
  | cons b rest ih =>
    rw [List.map_cons, List.sum_cons, List.filterMap_cons, boxConfVal_eq_validTokenConf]
    cases h : validTokenConf b with
    | none => simpa using ih
    | some c => simpa using ih

/-- C2.  For every configuration, image and text,
classify_identity_document raises TypeError before producing a
classification: the first statement of _extract_features unpacks the
result of calculate_ink_ratio as a 2-tuple, but
checks.clarity_check.calculate_ink_ratio returns a single float, so
the per-segment classification pipeline cannot complete normally. -/
theorem c2_classify_identity_document_always_type_error
    (cfg : TypeSideConfig) (w : SideWeights) (image : ImageData)
    (text_content : PyStr) (page_number : String) :
    classify_identity_document cfg w image text_content page_number =
      Except.error PyErr.typeError := rfl

/-- C1.  On a 2-page PDF whose first page is blank and whose second
page renders the text Sample text for testing, extract_page_data does
not return two page records: it raises TypeError at the statement
that unpacks the bare float returned by calculate_ink_ratio, before
any record is produced. -/
theorem c1_extract_page_data_two_page_pdf_raises :
    extract_page_data {} id (String.toList "sample.pdf")
      [{ inkRatio := 0, ocrConfFast := 0, textFast := [] },
       { inkRatio := 1/10, ocrConfFast := 50,
         textFast := String.toList "Sample text for testing" }]
      { inkRatio := 0, ocrConfFast := 0, textFast := [] } =
      Except.error PyErr.typeError := rfl

/-- C10.  For every PDF input with zero pages, extract_page_data
returns exactly one synthetic page record with page number 1, ink
ratio 0, OCR confidence 0 and empty text content, and does not raise. -/
theorem c10_empty_pdf_synthetic_record (cfg : OcrSettingsCfg)
    (artifactSub : PyStr → PyStr) (file_name : PyStr)
    (pdfPages : List ImageData) (imageFile : ImageData)
    (hpdf : endsWithPdf file_name = true) (hempty : pdfPages = []) :
    extract_page_data cfg artifactSub file_name pdfPages imageFile =
        Except.ok [emptyPdfRecord] ∧
      emptyPdfRecord.page = 1 ∧ emptyPdfRecord.ink_ratio = 0 ∧
      emptyPdfRecord.ocr_conf = 0 ∧ emptyPdfRecord.text_content = [] := by
  subst hempty
  refine ⟨?_, rfl, rfl, rfl, rfl⟩
  unfold extract_page_data
  rw [if_pos hpdf, if_pos rfl]

/-- Witness for C10 at a concrete zero-page PDF input. -/
theorem c10_witness :
    extract_page_data {} id (String.toList "a.pdf") []
        { inkRatio := 0, ocrConfFast := 0, textFast := [] } =
      Except.ok [emptyPdfRecord] :=
  (c10_empty_pdf_synthetic_record {} id (String.toList "a.pdf") []
    { inkRatio := 0, ocrConfFast := 0, textFast := [] } (by decide) rfl).1

/-- C3 counterexample.  On OCR data with one valid token of
confidence 80 and one empty-text box of confidence 90, the superfast
tier returns 40 (the mean over ALL boxes, empty boxes contributing
0), not the 80 the claim's mean-over-valid-tokens rule demands. -/
theorem c3_counterexample :
    calculate_ocr_confidence_superfast
        [{ text := ['a'], conf := some 80 }, { text := [], conf := some 90 }] = 40 ∧
      specMeanValidTokenConfidence
        [{ text := ['a'], conf := some 80 }, { text := [], conf := some 90 }] = 80 ∧
      (40 : ℚ) ≠ 80 := by
  have h1 : strTruthy ['a'] = true := by decide
  have h2 : strTruthy ([] : PyStr) = false := rfl
  refine ⟨?_, ?_, by norm_num⟩
  · have hm : [({ text := ['a'], conf := some 80 } : OcrBox),
        { text := [], conf := some 90 }].map boxConfVal = [80, 0] := by
      simp [boxConfVal, h1, h2]
    rw [calculate_ocr_confidence_superfast, ocrPassConf,
      extract_confidences_from_ocr_data, hm, meanOrZero_cons]
    norm_num
  · have hm : [({ text := ['a'], conf := some 80 } : OcrBox),
        { text := [], conf := some 90 }].filterMap (fun b =>
        match b.conf with
        | none => none
        | some c => if 0 ≤ c ∧ strTruthy b.text then some c else none) = [80] := by
      simp [h1, h2]
    rw [specMeanValidTokenConfidence, hm, meanOrZero_cons]
    norm_num

/-- C3 amended.  In the superfast and balanced tiers (the ones built
on _extract_confidences_from_ocr_data) the confidence of each OCR
pass is the mean over ALL boxes of the pass: the sum of the valid
non-empty token confidences divided by the number of all boxes, so an
empty-text or invalid box counts in the denominator and drags the
mean down as a zero; it is 0 when the pass returns no boxes, and 0
when no valid token exists.  The superfast tier returns that
single-pass mean; the balanced tier returns the first-pass mean
unchanged when it is at least 10 and otherwise the larger of the
first-pass and enhanced second-pass means. -/
theorem c3_amended_mean_over_all_boxes (data d2 : List OcrBox) :
    (data ≠ [] →
      calculate_ocr_confidence_superfast data =
        (data.filterMap validTokenConf).sum / (data.length : ℚ)) ∧
      (data = [] → calculate_ocr_confidence_superfast data = 0) ∧
      ((∀ b ∈ data, validTokenConf b = none) →
        calculate_ocr_confidence_superfast data = 0) ∧
      (10 ≤ calculate_ocr_confidence_superfast data →
        calculate_ocr_confidence_balanced data d2 =
          (calculate_ocr_confidence_superfast data, false)) ∧
      (calculate_ocr_confidence_superfast data < 10 →
        calculate_ocr_confidence_balanced data d2 =
          (max (calculate_ocr_confidence_superfast data)
            (calculate_ocr_confidence_superfast d2), true)) := by
  have hval : data ≠ [] →
      calculate_ocr_confidence_superfast data =
        (data.filterMap validTokenConf).sum / (data.length : ℚ) := by
    intro hne
    have hmap : extract_confidences_from_ocr_data data ≠ [] := by
      unfold extract_confidences_from_ocr_data
      simpa using hne
    unfold calculate_ocr_confidence_superfast ocrPassConf meanOrZero
    rw [if_neg hmap]
    unfold extract_confidences_from_ocr_data
    rw [sum_boxConfVal_eq_sum_valid, List.length_map]
  have hemp : data = [] → calculate_ocr_confidence_superfast data = 0 := by
    intro h
    subst h
    rfl
  refine ⟨hval, hemp, ?_, ?_, ?_⟩
  · intro hall
    by_cases hd : data = []
    · exact hemp hd
    · rw [hval hd]
      have hnil : data.filterMap validTokenConf = [] := by
        rw [List.filterMap_eq_nil_iff]
        intro b hb
        exact hall b hb
      rw [hnil]
      simp
  · intro h10
    have h10' : 10 ≤ ocrPassConf data := h10
    simp only [calculate_ocr_confidence_balanced]
    rcases le_or_lt 15 (ocrPassConf data) with h | h
    · rw [if_pos h]
      rfl
    · rw [if_neg (not_le.mpr h), if_neg (not_lt.mpr h10')]
      rfl
  · intro h10
    have h10' : ocrPassConf data < 10 := h10
    simp only [calculate_ocr_confidence_balanced]
    rw [if_neg (by intro h; exact absurd h (by linarith)), if_pos h10']
    rcases le_or_lt (ocrPassConf d2) (ocrPassConf data) with h | h
    · rw [if_neg (not_lt.mpr h)]
      exact congrArg (fun q => (q, true)) (max_eq_left h).symm
    · rw [if_pos h]
      exact congrArg (fun q => (q, true)) (max_eq_right (le_of_lt h)).symm

/-- Witness for C3 at one concrete valid-token input whose first-pass
mean of 20 also sends the balanced tier down the no-second-pass
branch. -/
theorem c3_witness :
    calculate_ocr_confidence_superfast [{ text := ['a'], conf := some 20 }] =
        (List.filterMap validTokenConf [{ text := ['a'], conf := some 20 }]).sum /
          (([{ text := ['a'], conf := some 20 }] : List OcrBox).length : ℚ) ∧
      calculate_ocr_confidence_balanced [{ text := ['a'], conf := some 20 }] [] =
        (calculate_ocr_confidence_superfast [{ text := ['a'], conf := some 20 }],
          false) := by
  have h1 : strTruthy ['a'] = true := by decide
  have hp : calculate_ocr_confidence_superfast
      [{ text := ['a'], conf := some 20 }] = 20 := by
    have hm : [({ text := ['a'], conf := some 20 } : OcrBox)].map boxConfVal =
        [20] := by
      simp [boxConfVal, h1]
    rw [calculate_ocr_confidence_superfast, ocrPassConf,
      extract_confidences_from_ocr_data, hm, meanOrZero_cons]
    norm_num
  exact ⟨(c3_amended_mean_over_all_boxes [{ text := ['a'], conf := some 20 }]
      []).1 (by simp),
    (c3_amended_mean_over_all_boxes [{ text := ['a'], conf := some 20 }]
      []).2.2.2.1 (by rw [hp]; norm_num)⟩

/-- C7 counterexample.  With a first OCR pass of confidence 12 (below
15) and an enhanced pass that would score 90, the balanced tier
returns 12 without attempting the second pass: the enhancement only
runs below 10, so the claimed below-15 retry and best-of-two rule
fail. -/
theorem c7_counterexample :
    ocrPassConf [{ text := ['a'], conf := some 12 }] < 15 ∧
      calculate_ocr_confidence_balanced [{ text := ['a'], conf := some 12 }]
        [{ text := ['b'], conf := some 90 }] = (12, false) ∧
      (12 : ℚ) ≠ max (ocrPassConf [{ text := ['a'], conf := some 12 }])
        (ocrPassConf [{ text := ['b'], conf := some 90 }]) := by
  have h1 : strTruthy ['a'] = true := by decide
  have h2 : strTruthy ['b'] = true := by decide
  have hp1 : ocrPassConf [{ text := ['a'], conf := some 12 }] = 12 := by
    have hm : [({ text := ['a'], conf := some 12 } : OcrBox)].map boxConfVal = [12] := by
      simp [boxConfVal, h1]
    rw [ocrPassConf, extract_confidences_from_ocr_data, hm, meanOrZero_cons]
    norm_num
  have hp2 : ocrPassConf [{ text := ['b'], conf := some 90 }] = 90 := by
    have hm : [({ text := ['b'], conf := some 90 } : OcrBox)].map boxConfVal = [90] := by
      simp [boxConfVal, h2]
    rw [ocrPassConf, extract_confidences_from_ocr_data, hm, meanOrZero_cons]
    norm_num
  refine ⟨by rw [hp1]; norm_num, ?_, by rw [hp1, hp2]; norm_num⟩
  simp only [calculate_ocr_confidence_balanced, hp1]
  norm_num

/-- C7 amended.  The balanced tier attempts the second,
contrast-enhanced pass exactly when the first pass scores below 10
(not 15), returning the larger of the two pass confidences; a first
pass scoring 10 or more is returned as-is with no second pass. -/
theorem c7_amended_second_pass_below_ten (pass1 pass2 : List OcrBox) :
    (ocrPassConf pass1 < 10 →
      calculate_ocr_confidence_balanced pass1 pass2 =
        (max (ocrPassConf pass1) (ocrPassConf pass2), true)) ∧
      (10 ≤ ocrPassConf pass1 →
        calculate_ocr_confidence_balanced pass1 pass2 =
          (ocrPassConf pass1, false)) := by
  constructor
  · intro h10
    simp only [calculate_ocr_confidence_balanced]
    rw [if_neg (by linarith), if_pos h10]
    rcases le_or_lt (ocrPassConf pass2) (ocrPassConf pass1) with h | h
    · rw [if_neg (not_lt.mpr h), max_eq_left h]
    · rw [if_pos h, max_eq_right (le_of_lt h)]
  · intro h10
    simp only [calculate_ocr_confidence_balanced]
    rcases le_or_lt 15 (ocrPassConf pass1) with h | h
    · rw [if_pos h]
    · rw [if_neg (not_le.mpr h), if_neg (not_lt.mpr h10)]

/-- Witness for C7 at a concrete below-10 first pass. -/
theorem c7_witness :
    calculate_ocr_confidence_balanced [{ text := ['a'], conf := some 5 }]
      [{ text := ['b'], conf := some 90 }] = (90, true) := by
  have h1 : strTruthy ['a'] = true := by decide
  have h2 : strTruthy ['b'] = true := by decide
  have hp1 : ocrPassConf [{ text := ['a'], conf := some 5 }] = 5 := by
    have hm : [({ text := ['a'], conf := some 5 } : OcrBox)].map boxConfVal = [5] := by
      simp [boxConfVal, h1]
    rw [ocrPassConf, extract_confidences_from_ocr_data, hm, meanOrZero_cons]
    norm_num
  have hp2 : ocrPassConf [{ text := ['b'], conf := some 90 }] = 90 := by
    have hm : [({ text := ['b'], conf := some 90 } : OcrBox)].map boxConfVal = [90] := by
      simp [boxConfVal, h2]
    rw [ocrPassConf, extract_confidences_from_ocr_data, hm, meanOrZero_cons]
    norm_num
  rw [(c7_amended_second_pass_below_ten [{ text := ['a'], conf := some 5 }]
    [{ text := ['b'], conf := some 90 }]).1 (by rw [hp1]; norm_num),
    hp1, hp2]
  norm_num

/-- C5 counterexample.  With a configured max_confidence_cap of 40
(all other boost settings at their defaults, all bonuses and quality
factors non-negative) and a classification of pre-adjustment
confidence 80, the adjustment caps the confidence down to 40, below
its pre-adjustment value — the claim's lower bound fails because the
cap is configurable, not fixed at 100. -/
theorem c5_counterexample :
    0 ≤ (apply_frequency_based_adjustment exBoostCfg exKeywordFrequency 80
        exAdjFeatures).2.frequency_boost ∧
      0 ≤ (apply_frequency_based_adjustment exBoostCfg exKeywordFrequency 80
        exAdjFeatures).2.specificity_bonus ∧
      0 ≤ (apply_frequency_based_adjustment exBoostCfg exKeywordFrequency 80
        exAdjFeatures).2.consistency_bonus ∧
      0 ≤ (apply_frequency_based_adjustment exBoostCfg exKeywordFrequency 80
        exAdjFeatures).2.quality_factor ∧
      (80 : ℚ) ≤ 100 ∧
      (apply_frequency_based_adjustment exBoostCfg exKeywordFrequency 80
        exAdjFeatures).1 < 80 := by
  have hwc : wordCount ['c', 'a', 'r', 't', 'a'] = 1 := by decide
  have key : apply_frequency_based_adjustment exBoostCfg exKeywordFrequency 80
      exAdjFeatures =
      (40, { frequency_boost := 5, specificity_bonus := 1, consistency_bonus := 0,
             quality_factor := 1, total_adjustment := 6, matched_keyword_count := 1,
             cross_document_matches := 1 }) := by
    rw [apply_frequency_based_adjustment]
    norm_num [exBoostCfg, exKeywordFrequency, exAdjFeatures, alookup,
      specificityPerKeyword, hwc]
  rw [key]
  norm_num

/-- C5 amended.  When the computed frequency boost, specificity bonus
and consistency bonus are all non-negative, the quality factor is
non-negative and the pre-adjustment confidence is at most the
configured max_confidence_cap, the adjusted confidence is at least
the pre-adjustment confidence and at most max_confidence_cap: the
clamp is the configurable cap, not the constant 100. -/
theorem c5_amended_confidence_bounds (cfg : BoostSettings)
    (kf : KeywordFrequency) (base : ℚ) (features : AdjFeatures)
    (hfb : 0 ≤ (apply_frequency_based_adjustment cfg kf base features).2.frequency_boost)
    (hsb : 0 ≤ (apply_frequency_based_adjustment cfg kf base features).2.specificity_bonus)
    (hcb : 0 ≤ (apply_frequency_based_adjustment cfg kf base features).2.consistency_bonus)
    (hqf : 0 ≤ (apply_frequency_based_adjustment cfg kf base features).2.quality_factor)
    (hbase : base ≤ cfg.max_confidence_cap) :
    base ≤ (apply_frequency_based_adjustment cfg kf base features).1 ∧
      (apply_frequency_based_adjustment cfg kf base features).1 ≤
        cfg.max_confidence_cap := by
  have hstruct : (apply_frequency_based_adjustment cfg kf base features).1 =
      min cfg.max_confidence_cap (base +
        ((apply_frequency_based_adjustment cfg kf base features).2.frequency_boost +
          (apply_frequency_based_adjustment cfg kf base features).2.specificity_bonus +
          (apply_frequency_based_adjustment cfg kf base features).2.consistency_bonus) *
        (apply_frequency_based_adjustment cfg kf base features).2.quality_factor) := rfl
  have hadj : 0 ≤
      ((apply_frequency_based_adjustment cfg kf base features).2.frequency_boost +
        (apply_frequency_based_adjustment cfg kf base features).2.specificity_bonus +
        (apply_frequency_based_adjustment cfg kf base features).2.consistency_bonus) *
      (apply_frequency_based_adjustment cfg kf base features).2.quality_factor :=
    mul_nonneg (by linarith) hqf
  constructor
  · rw [hstruct]
    exact le_min hbase (by linarith)
  · rw [hstruct]
    exact min_le_left _ _

/-- Witness for C5 with the default boost settings at a concrete
classification of pre-adjustment confidence 50. -/
theorem c5_witness :
    50 ≤ (apply_frequency_based_adjustment {} exKeywordFrequency 50
        exAdjFeatures).1 ∧
      (apply_frequency_based_adjustment {} exKeywordFrequency 50
        exAdjFeatures).1 ≤ ({} : BoostSettings).max_confidence_cap := by
  have hwc : wordCount ['c', 'a', 'r', 't', 'a'] = 1 := by decide
  have key : apply_frequency_based_adjustment {} exKeywordFrequency 50
      exAdjFeatures =
      (56, { frequency_boost := 5, specificity_bonus := 1, consistency_bonus := 0,
             quality_factor := 1, total_adjustment := 6, matched_keyword_count := 1,
             cross_document_matches := 1 }) := by
    rw [apply_frequency_based_adjustment]
    norm_num [alookup, exKeywordFrequency, exAdjFeatures, specificityPerKeyword, hwc]
  exact c5_amended_confidence_bounds {} exKeywordFrequency 50 exAdjFeatures
    (by rw [key]; try norm_num) (by rw [key]; try norm_num)
    (by rw [key]; try norm_num) (by rw [key]; try norm_num)
    (by norm_num)

/-- A list has a matching element exactly when the filtered list is
non-trivial; links the has_*_keywords flags to the *_score counts of
analyze_document_content. -/
theorem any_iff_filter_length_pos {α : Type} (p : α → Bool) (l : List α) :
    l.any p = true ↔ 0 < (l.filter p).length := by
  rw [List.any_eq_true, List.length_pos_iff_exists_mem]
  constructor
  · rintro ⟨x, hx, hpx⟩
    exact ⟨x, List.mem_filter.mpr ⟨hx, hpx⟩⟩
  · rintro ⟨x, hx⟩
    obtain ⟨hmem, hpx⟩ := List.mem_filter.mp hx
    exact ⟨x, hmem, hpx⟩

/-- With fewer than five left-angle characters the MRZ flag of
analyze_document_content is false. -/
theorem analyze_mrz_false (text : PyStr)
    (hmrz : (analyze_document_content text).mrz_score < 5) :
    (analyze_document_content text).has_mrz = false := by
  have h5 : ¬5 ≤ (text.filter (fun c => c = '<')).length := by
    simpa [analyze_document_content] using hmrz
  simp [analyze_document_content, h5]

/-- C9 counterexample.  The text firma nome has no MRZ pattern, tied
back and front keyword scores (one hit each) and fewer than 200
characters, yet the heuristic corrector assigns BACK, not the FRONT
the claim's short-text tie-break demands: the tie branch requires the
back score only to be greater or equal, and the front-priority branch
below it is unreachable. -/
theorem c9_counterexample :
    (analyze_document_content (String.toList "firma nome")).mrz_score < 5 ∧
      (analyze_document_content (String.toList "firma nome")).back_score =
        (analyze_document_content (String.toList "firma nome")).front_score ∧
      (String.toList "firma nome").length < 200 ∧
      heuristicSideUpdate (String.toList "firma nome") DocumentSide.UNKNOWN =
        DocumentSide.BACK ∧
      DocumentSide.BACK ≠ DocumentSide.FRONT := by decide

/-- C9 amended.  For a segment without an MRZ-like pattern (fewer
than five left-angle characters) the corrector sets the side to
whichever of the hand-curated back and front keyword lists scores
strictly higher; a tie with positive scores is resolved to BACK (the
back branch fires on greater-or-equal), and when both scores are zero
the side is left unchanged — the short-text FRONT tie-break of the
source is unreachable. -/
theorem c9_amended_side_assignment (text : PyStr) (current : DocumentSide)
    (hmrz : (analyze_document_content text).mrz_score < 5) :
    ((analyze_document_content text).front_score <
        (analyze_document_content text).back_score →
      heuristicSideUpdate text current = DocumentSide.BACK) ∧
      ((analyze_document_content text).back_score <
          (analyze_document_content text).front_score →
        heuristicSideUpdate text current = DocumentSide.FRONT) ∧
      ((analyze_document_content text).back_score =
          (analyze_document_content text).front_score →
        0 < (analyze_document_content text).back_score →
        heuristicSideUpdate text current = DocumentSide.BACK) ∧
      ((analyze_document_content text).back_score = 0 →
        (analyze_document_content text).front_score = 0 →
        heuristicSideUpdate text current = current) := by
  have hmrzf := analyze_mrz_false text hmrz
  have hback : (analyze_document_content text).has_back_keywords = true ↔
      0 < (analyze_document_content text).back_score := by
    simpa [analyze_document_content] using
      any_iff_filter_length_pos
        (fun kw => occursIn kw (strLower text)) heuristic_back_keywords
  have hfront : (analyze_document_content text).has_front_keywords = true ↔
      0 < (analyze_document_content text).front_score := by
    simpa [analyze_document_content] using
      any_iff_filter_length_pos
        (fun kw => occursIn kw (strLower text)) heuristic_front_keywords
  refine ⟨?_, ?_, ?_, ?_⟩
  · intro hlt
    rw [heuristicSideUpdate, hmrzf]
    have hb : (analyze_document_content text).has_back_keywords = true :=
      hback.mpr (lt_of_le_of_lt (Nat.zero_le _) hlt)
    simp [hb, Nat.le_of_lt hlt]
  · intro hlt
    rw [heuristicSideUpdate, hmrzf]
    have hf : (analyze_document_content text).has_front_keywords = true :=
      hfront.mpr (lt_of_le_of_lt (Nat.zero_le _) hlt)
    have hnb : ¬((analyze_document_content text).has_back_keywords = true ∧
        (analyze_document_content text).front_score ≤
          (analyze_document_content text).back_score) := by
      rintro ⟨-, hle⟩
      exact absurd hlt (not_lt.mpr hle)
    simp only [Bool.false_eq_true, if_false]
    rw [if_neg (by simpa [Bool.and_eq_true, decide_eq_true_eq] using hnb),
      if_pos (by simp [hf, hlt])]
  · intro heq hpos
    rw [heuristicSideUpdate, hmrzf]
    have hb : (analyze_document_content text).has_back_keywords = true :=
      hback.mpr hpos
    simp [hb, heq.ge]
  · intro hb0 hf0
    rw [heuristicSideUpdate, hmrzf]
    have hnb : (analyze_document_content text).has_back_keywords = false := by
      rcases Bool.eq_false_or_eq_true
          (analyze_document_content text).has_back_keywords with h | h
      · exact absurd (hback.mp h) (by simp [hb0])
      · exact h
    have hnf : (analyze_document_content text).has_front_keywords = false := by
      rcases Bool.eq_false_or_eq_true
          (analyze_document_content text).has_front_keywords with h | h
      · exact absurd (hfront.mp h) (by simp [hf0])
      · exact h
    simp [hnb, hnf]

/-- Witness for C9 on the text firma, which scores back 1 front 0. -/
theorem c9_witness :
    heuristicSideUpdate (String.toList "firma") DocumentSide.UNKNOWN =
      DocumentSide.BACK :=
  (c9_amended_side_assignment (String.toList "firma") DocumentSide.UNKNOWN
    (by decide)).1 (by decide)

/-- Characterization of the fold behind maxByValFirst started from a
first candidate: the result is the first element of the whole list
attaining the maximal value (strictly greater than everything before
it, at least everything after it), matching CPython max semantics. -/
theorem maxByValFirst_go (l : List (String × ℕ)) :
    ∀ b : String × ℕ,
      ∃ l1 p l2, b :: l = l1 ++ p :: l2 ∧
        (l.foldl (fun acc q =>
          match acc with
          | none => some q
          | some r => if r.2 < q.2 then some q else some r) (some b)) = some p ∧
        (∀ q ∈ l1, q.2 < p.2) ∧ (∀ q ∈ l2, q.2 ≤ p.2) := by
  induction l with
  | nil =>
    intro b
    exact ⟨[], b, [], rfl, rfl, by simp, by simp⟩
  | cons x l ih =>
    intro b
    by_cases hlt : b.2 < x.2
    · obtain ⟨l1, p, l2, hsplit, hfold, hbefore, hafter⟩ := ih x
      have hxle : x.2 ≤ p.2 := by
        cases l1 with
        | nil =>
          simp only [List.nil_append, List.cons.injEq] at hsplit
          exact hsplit.1 ▸ le_refl _
        | cons a t =>
          have hx : x = a := by
            simpa using congrArg (fun s => s.headI) hsplit
          have : x.2 < p.2 := by
            rw [hx]
            exact hbefore a (by simp)
          exact le_of_lt this
      refine ⟨b :: l1, p, l2, by simpa using hsplit, ?_, ?_, hafter⟩
      · simpa [hlt] using hfold
      · intro q hq
        rcases List.mem_cons.mp hq with h | h
        · exact h ▸ lt_of_lt_of_le hlt hxle
        · exact hbefore q h
    · obtain ⟨l1, p, l2, hsplit, hfold, hbefore, hafter⟩ := ih b
      cases l1 with
      | nil =>
        simp only [List.nil_append, List.cons.injEq] at hsplit
        refine ⟨[], b, x :: l2, by simp [hsplit.2], ?_, by simp, ?_⟩
        · have hpb : p = b := hsplit.1.symm
          simpa [hlt, hpb] using hfold
        · intro q hq
          have hpb : p = b := hsplit.1.symm
          rcases List.mem_cons.mp hq with h | h
          · exact h ▸ le_of_not_lt hlt
          · exact hpb ▸ hafter q h
      | cons a t =>
        have hab : a = b := by
          simpa using (congrArg (fun s => s.headI) hsplit).symm
        have hl : l = t ++ p :: l2 := by
          simpa using congrArg List.tail hsplit
        refine ⟨b :: x :: t, p, l2, by simp [hl], ?_, ?_, hafter⟩
        · simpa [hlt] using hfold
        · intro q hq
          have hblt : b.2 < p.2 := hab ▸ hbefore a (by simp)
          rcases List.mem_cons.mp hq with h | h
          · exact h ▸ hblt
          · rcases List.mem_cons.mp h with h2 | h2
            · exact h2 ▸ lt_of_le_of_lt (le_of_not_lt hlt) hblt
            · exact hbefore q (List.mem_cons_of_mem a h2)

/-- maxByValFirst on a non-empty list returns the first entry with
the maximal value. -/
theorem maxByValFirst_spec (l : List (String × ℕ)) (hne : l ≠ []) :
    ∃ l1 p l2, l = l1 ++ p :: l2 ∧ maxByValFirst l = some p ∧
      (∀ q ∈ l1, q.2 < p.2) ∧ (∀ q ∈ l2, q.2 ≤ p.2) := by
  cases l with
  | nil => exact absurd rfl hne
  | cons b rest =>
    obtain ⟨l1, p, l2, hsplit, hfold, hbefore, hafter⟩ := maxByValFirst_go rest b
    exact ⟨l1, p, l2, hsplit, by simpa [maxByValFirst] using hfold, hbefore, hafter⟩

/-- C8 counterexample.  With keyword config eng: hello, deu: hallo
(in that order), primary language ita and text hello hallo (free of
artifact patterns, so the regex filter leaves it unchanged), both
languages count 1 keyword hit; the claim says the tie falls back to
the primary ita, but the code returns eng, the first configured
language with the maximal count. -/
theorem c8_counterexample :
    langMatchCount [String.toList "hello"]
        (strLower (pyStrip (String.toList "hello hallo"))) =
      langMatchCount [String.toList "hallo"]
        (strLower (pyStrip (String.toList "hello hallo"))) ∧
      detect_document_language id
        [("eng", [String.toList "hello"]), ("deu", [String.toList "hallo"])]
        (String.toList "hello hallo") "ita" = "eng" ∧
      ("eng" : String) ≠ "ita" := by decide

/-- C8 amended.  Empty text, all-artifact text and zero matches
everywhere all fall back to the primary language; otherwise the
winner is the first configured language attaining the maximal
positive keyword count — ties are broken by configuration order, not
by the primary language, and keywords are matched as configured
against the lowercased filtered text. -/
theorem c8_amended_first_positive_max_wins (artifactSub : PyStr → PyStr)
    (lang_keywords : List (String × List PyStr)) (text_content : PyStr)
    (primary_language : String) (htext : text_content ≠ [])
    (hfiltered : pyStrip (artifactSub text_content) ≠ []) :
    (langScoresPositive artifactSub lang_keywords text_content = [] →
      detect_document_language artifactSub lang_keywords text_content
        primary_language = primary_language) ∧
      (langScoresPositive artifactSub lang_keywords text_content ≠ [] →
        ∃ l1 p l2,
          langScoresPositive artifactSub lang_keywords text_content =
            l1 ++ p :: l2 ∧
          detect_document_language artifactSub lang_keywords text_content
            primary_language = p.1 ∧
          0 < p.2 ∧ (∀ q ∈ l1, q.2 < p.2) ∧ (∀ q ∈ l2, q.2 ≤ p.2)) := by
  have hunfold : detect_document_language artifactSub lang_keywords text_content
      primary_language =
      match maxByValFirst
        (langScoresPositive artifactSub lang_keywords text_content) with
      | some p => p.1
      | none => primary_language := by
    rw [detect_document_language, if_neg htext, if_neg hfiltered]
    rfl
  constructor
  · intro hpos
    rw [hunfold, hpos]
    rfl
  · intro hpos
    obtain ⟨l1, p, l2, hsplit, hmax, hbefore, hafter⟩ :=
      maxByValFirst_spec _ hpos
    refine ⟨l1, p, l2, hsplit, ?_, ?_, hbefore, hafter⟩
    · rw [hunfold, hmax]
    · have hp : p ∈ langScoresPositive artifactSub lang_keywords text_content := by
        rw [hsplit]
        simp
      have := List.of_mem_filter hp
      simpa using this

/-- Witness for C8 at a single-language configuration with one hit. -/
theorem c8_witness :
    detect_document_language id [("eng", [String.toList "hello"])]
      (String.toList "hello") "ita" = "eng" := by
  obtain ⟨l1, p, l2, hsplit, hdet, -, -, -⟩ :=
    (c8_amended_first_positive_max_wins id [("eng", [String.toList "hello"])]
      (String.toList "hello") "ita" (by decide) (by decide)).2 (by decide)
  have hval : langScoresPositive id [("eng", [String.toList "hello"])]
      (String.toList "hello") = [("eng", 1)] := by decide
  rw [hval] at hsplit
  cases l1 with
  | nil =>
    simp only [List.nil_append, List.cons.injEq] at hsplit
    rw [hdet, ← hsplit.1]
  | cons a t =>
    exfalso
    have hlen := congrArg List.length hsplit
    simp at hlen

/-- IoU is symmetric. -/
theorem calculate_iou_comm (c1 c2 : NBox) :
    calculate_iou c1 c2 = calculate_iou c2 c1 := by
  simp only [calculate_iou]
  rw [max_comm (c1.x : ℤ) (c2.x : ℤ), max_comm (c1.y : ℤ) (c2.y : ℤ),
    min_comm ((c1.x : ℤ) + c1.w) ((c2.x : ℤ) + c2.w),
    min_comm ((c1.y : ℤ) + c1.h) ((c2.y : ℤ) + c2.h),
    add_comm ((c1.w : ℤ) * c1.h) ((c2.w : ℤ) * c2.h)]

/-- The separation gaps are symmetric. -/
theorem get_separation_comm (c1 c2 : NBox) :
    get_separation c1 c2 = get_separation c2 c1 := by
  simp only [get_separation, Prod.mk.injEq]
  constructor <;> (split_ifs <;> omega)

/-- The rejection test is false exactly when the candidate is
compatible with the kept box: IoU at most the threshold and a
positive gap in some axis. -/
theorem overlapsKept_false_iff (thr : ℚ) (c s : NBox) :
    overlapsKept thr c s = false ↔
      calculate_iou c s ≤ thr ∧ posGap c s := by
  simp only [overlapsKept, posGap, Bool.or_eq_false_iff, Bool.and_eq_false_iff,
    decide_eq_false_iff_not, not_lt]
  constructor
  · rintro ⟨hiou, hsep⟩
    refine ⟨hiou, ?_⟩
    rcases hsep with h | h
    · exact Or.inl (Nat.pos_of_ne_zero h)
    · exact Or.inr (Nat.pos_of_ne_zero h)
  · rintro ⟨hiou, hsep⟩
    refine ⟨hiou, ?_⟩
    rcases hsep with h | h
    · exact Or.inl (Nat.pos_iff_ne_zero.mp h)
    · exact Or.inr (Nat.pos_iff_ne_zero.mp h)

/-- Compatibility is symmetric. -/
theorem compat_symm (thr : ℚ) (a b : NBox)
    (h : calculate_iou a b ≤ thr ∧ posGap a b) :
    calculate_iou b a ≤ thr ∧ posGap b a := by
  refine ⟨calculate_iou_comm b a ▸ h.1, ?_⟩
  have := h.2
  rw [posGap, get_separation_comm b a]
  exact this

/-- The greedy loop preserves pairwise compatibility of the kept
list. -/
theorem removeLoop_pairwise (thr : ℚ) (rest : List NBox) :
    ∀ kept : List NBox,
      kept.Pairwise (fun a b => calculate_iou a b ≤ thr ∧ posGap a b) →
      (removeLoop thr rest kept).Pairwise
        (fun a b => calculate_iou a b ≤ thr ∧ posGap a b) := by
  induction rest with
  | nil =>
    intro kept hk
    simpa [removeLoop] using hk
  | cons c rest ih =>
    intro kept hk
    rw [removeLoop]
    by_cases h : kept.any (overlapsKept thr c)
    · rw [if_pos h]
      exact ih kept hk
    · rw [if_neg h]
      apply ih
      rw [List.pairwise_append]
      refine ⟨hk, List.pairwise_singleton _ _, ?_⟩
      intro a ha b hb
      rw [List.mem_singleton] at hb
      rw [hb]
      have hfalse : overlapsKept thr c a = false := by
        rcases Bool.eq_false_or_eq_true (overlapsKept thr c a) with ht | hf
        · exact absurd (List.any_eq_true.mpr ⟨a, ha, ht⟩) h
        · exact hf
      exact compat_symm thr c a ((overlapsKept_false_iff thr c a).mp hfalse)

/-- C6.  remove_overlapping_contours keeps only candidates that are
pairwise compatible under the greedy rule — every pair of returned
boxes has IoU at most the 0.3 threshold and a positive gap in some
axis — and on two identical-area boxes with IoU above 0.3 it returns
exactly the area-sort-first box. -/
theorem c6_remove_overlapping_greedy :
    (∀ contours : List NBox,
      (remove_overlapping_contours contours (3/10)).Pairwise
        (fun a b => calculate_iou a b ≤ 3/10 ∧ posGap a b)) ∧
      (∀ c1 c2 : NBox, c1.w * c1.h = c2.w * c2.h →
        3/10 < calculate_iou c1 c2 →
        remove_overlapping_contours [c1, c2] (3/10) = [c1]) := by
  constructor
  · intro contours
    rcases contours with _ | ⟨a, _ | ⟨b, t⟩⟩
    · simp [remove_overlapping_contours]
    · simp [remove_overlapping_contours]
    · rw [remove_overlapping_contours, if_neg (by simp)]
      exact removeLoop_pairwise _ _ [] List.Pairwise.nil
  · intro c1 c2 harea hiou
    rw [remove_overlapping_contours, if_neg (by simp)]
    have hsort : stableSortBy (fun a b => b.w * b.h < a.w * a.h) [c1, c2] =
        [c1, c2] := by
      simp [stableSortBy, ordInsertBy, harea]
    rw [hsort, removeLoop, if_neg (by simp), removeLoop]
    have hov : overlapsKept (3/10) c2 c1 = true := by
      simp only [overlapsKept, calculate_iou_comm c2 c1, Bool.or_eq_true,
        decide_eq_true_eq]
      exact Or.inl hiou
    rw [if_pos (by simp [hov]), removeLoop]
    simp

/-- Witness for C6: two identical 10 x 10 boxes offset by one pixel
(IoU 9/11 above 0.3) collapse to the first. -/
theorem c6_witness :
    remove_overlapping_contours
      [{ x := 0, y := 0, w := 10, h := 10 }, { x := 1, y := 0, w := 10, h := 10 }]
      (3/10) = [{ x := 0, y := 0, w := 10, h := 10 }] := by
  apply c6_remove_overlapping_greedy.2
  · rfl
  · rw [calculate_iou]
    norm_num

/-- pyTrunc is the identity on integer values. -/
theorem pyTrunc_intCast (n : ℤ) : pyTrunc ((n : ℚ)) = n := by
  rw [pyTrunc]
  split_ifs with h
  · rw [← Int.cast_neg, Int.floor_intCast]
    ring
  · exact Int.floor_intCast n

/-- C4 counterexample.  On a 2000 x 2000 page with three filtered
contours — two tall x-aligned candidates separated by a 110 px
vertical gap and a small candidate on the right whose padded box
starts between their padded tops — the pipeline pads the boxes (10
percent padding closes the vertical gap), and the adjustment pass
fixes only consecutive y-sorted pairs: the small middle box is
shrunk to negative height and dropped, while the two tall boxes are
never compared, so the two returned segments overlap (rows 930-939),
violating the claimed pairwise non-overlap invariant. -/
theorem c4_counterexample :
    segment_documents_on_page exDetectCfg 2000 2000
        [exContourA, exContourB, exContourC] [] [] =
      Except.ok [exSegTop, exSegBottom] ∧
      boxesOverlap exSegTop.bbox exSegBottom.bbox = true := by
  have hPadA : padContour exDetectCfg 2000 2000 { x := 100, y := 100, w := 500, h := 800 } =
      { x := 50, y := 20, w := 600, h := 960 } := by
    rw [padContour]
    rw [show ((({ x := 100, y := 100, w := 500, h := 800 } : NBox).w : ℚ) *
        (exDetectCfg.padding_percent / 100)) = ((50 : ℤ) : ℚ) by
      norm_num [exDetectCfg]]
    rw [show ((({ x := 100, y := 100, w := 500, h := 800 } : NBox).h : ℚ) *
        (exDetectCfg.padding_percent / 100)) = ((80 : ℤ) : ℚ) by
      norm_num [exDetectCfg]]
    rw [pyTrunc_intCast, pyTrunc_intCast]
    norm_num [max_def, min_def]
  have hPadB : padContour exDetectCfg 2000 2000 { x := 800, y := 902, w := 100, h := 20 } =
      { x := 790, y := 900, w := 120, h := 24 } := by
    rw [padContour]
    rw [show ((({ x := 800, y := 902, w := 100, h := 20 } : NBox).w : ℚ) *
        (exDetectCfg.padding_percent / 100)) = ((10 : ℤ) : ℚ) by
      norm_num [exDetectCfg]]
    rw [show ((({ x := 800, y := 902, w := 100, h := 20 } : NBox).h : ℚ) *
        (exDetectCfg.padding_percent / 100)) = ((2 : ℤ) : ℚ) by
      norm_num [exDetectCfg]]
    rw [pyTrunc_intCast, pyTrunc_intCast]
    norm_num [max_def, min_def]
  have hPadC : padContour exDetectCfg 2000 2000 { x := 100, y := 1010, w := 500, h := 800 } =
      { x := 50, y := 930, w := 600, h := 960 } := by
    rw [padContour]
    rw [show ((({ x := 100, y := 1010, w := 500, h := 800 } : NBox).w : ℚ) *
        (exDetectCfg.padding_percent / 100)) = ((50 : ℤ) : ℚ) by
      norm_num [exDetectCfg]]
    rw [show ((({ x := 100, y := 1010, w := 500, h := 800 } : NBox).h : ℚ) *
        (exDetectCfg.padding_percent / 100)) = ((80 : ℤ) : ℚ) by
      norm_num [exDetectCfg]]
    rw [pyTrunc_intCast, pyTrunc_intCast]
    norm_num [max_def, min_def]
  have hCand : contourCandidates exDetectCfg 2000 2000
      [exContourA, exContourB, exContourC] =
      [{ x := 100, y := 100, w := 500, h := 800 },
       { x := 800, y := 902, w := 100, h := 20 },
       { x := 100, y := 1010, w := 500, h := 800 }] := by
    rw [contourCandidates]
    norm_num [exDetectCfg, exContourA, exContourB, exContourC,
      List.filterMap_cons, List.filterMap_nil]
  have hSortX : stableSortBy (fun a b => a.x < b.x)
      [({ x := 100, y := 100, w := 500, h := 800 } : NBox),
       { x := 800, y := 902, w := 100, h := 20 },
       { x := 100, y := 1010, w := 500, h := 800 }] =
      [{ x := 100, y := 100, w := 500, h := 800 },
       { x := 100, y := 1010, w := 500, h := 800 },
       { x := 800, y := 902, w := 100, h := 20 }] := by decide
  have hSortArea : stableSortBy (fun a b => b.w * b.h < a.w * a.h)
      [({ x := 100, y := 100, w := 500, h := 800 } : NBox),
       { x := 100, y := 1010, w := 500, h := 800 },
       { x := 800, y := 902, w := 100, h := 20 }] =
      [{ x := 100, y := 100, w := 500, h := 800 },
       { x := 100, y := 1010, w := 500, h := 800 },
       { x := 800, y := 902, w := 100, h := 20 }] := by decide
  have hIouCA : calculate_iou { x := 100, y := 1010, w := 500, h := 800 }
      { x := 100, y := 100, w := 500, h := 800 } = 0 := by
    rw [calculate_iou]
    norm_num [max_def, min_def]
  have hIouBA : calculate_iou { x := 800, y := 902, w := 100, h := 20 }
      { x := 100, y := 100, w := 500, h := 800 } = 0 := by
    rw [calculate_iou]
    norm_num [max_def, min_def]
  have hIouBC : calculate_iou { x := 800, y := 902, w := 100, h := 20 }
      { x := 100, y := 1010, w := 500, h := 800 } = 0 := by
    rw [calculate_iou]
    norm_num [max_def, min_def]
  have hOvCA : overlapsKept (3/10) { x := 100, y := 1010, w := 500, h := 800 }
      { x := 100, y := 100, w := 500, h := 800 } = false := by
    rw [overlapsKept, hIouCA,
      (by decide : get_separation { x := 100, y := 1010, w := 500, h := 800 }
        { x := 100, y := 100, w := 500, h := 800 } = (0, 110))]
    norm_num
  have hOvBA : overlapsKept (3/10) { x := 800, y := 902, w := 100, h := 20 }
      { x := 100, y := 100, w := 500, h := 800 } = false := by
    rw [overlapsKept, hIouBA,
      (by decide : get_separation { x := 800, y := 902, w := 100, h := 20 }
        { x := 100, y := 100, w := 500, h := 800 } = (200, 2))]
    norm_num
  have hOvBC : overlapsKept (3/10) { x := 800, y := 902, w := 100, h := 20 }
      { x := 100, y := 1010, w := 500, h := 800 } = false := by
    rw [overlapsKept, hIouBC,
      (by decide : get_separation { x := 800, y := 902, w := 100, h := 20 }
        { x := 100, y := 1010, w := 500, h := 800 } = (200, 88))]
    norm_num
  have hRemove : remove_overlapping_contours
      [({ x := 100, y := 100, w := 500, h := 800 } : NBox),
       { x := 100, y := 1010, w := 500, h := 800 },
       { x := 800, y := 902, w := 100, h := 20 }] (3/10) =
      [{ x := 100, y := 100, w := 500, h := 800 },
       { x := 100, y := 1010, w := 500, h := 800 },
       { x := 800, y := 902, w := 100, h := 20 }] := by
    rw [remove_overlapping_contours, if_neg (by decide), hSortArea]
    simp [removeLoop, hOvCA, hOvBA, hOvBC]
  have hFrom : segmentedFromContours exDetectCfg 2000 2000
      [exContourA, exContourB, exContourC] =
      [{ bbox := { x := 50, y := 20, w := 600, h := 960 }, confidence := 1 },
       { bbox := { x := 50, y := 930, w := 600, h := 960 }, confidence := 1 },
       { bbox := { x := 790, y := 900, w := 120, h := 24 }, confidence := 1 }] := by
    rw [segmentedFromContours, hCand, hSortX, hRemove]
    simp [hPadA, hPadB, hPadC]
  have hSortY : stableSortBy (fun a b => a.bbox.y < b.bbox.y)
      [({ bbox := { x := 50, y := 20, w := 600, h := 960 }, confidence := 1 } : DocumentSegment),
       { bbox := { x := 50, y := 930, w := 600, h := 960 }, confidence := 1 },
       { bbox := { x := 790, y := 900, w := 120, h := 24 }, confidence := 1 }] =
      [{ bbox := { x := 50, y := 20, w := 600, h := 960 }, confidence := 1 },
       { bbox := { x := 790, y := 900, w := 120, h := 24 }, confidence := 1 },
       { bbox := { x := 50, y := 930, w := 600, h := 960 }, confidence := 1 }] := by
    simp [stableSortBy, ordInsertBy]
  have hAdj : adjustSegPairs
      [({ bbox := { x := 50, y := 20, w := 600, h := 960 }, confidence := 1 } : DocumentSegment),
       { bbox := { x := 790, y := 900, w := 120, h := 24 }, confidence := 1 },
       { bbox := { x := 50, y := 930, w := 600, h := 960 }, confidence := 1 }] =
      [{ bbox := { x := 50, y := 20, w := 600, h := 920 }, confidence := 1 },
       { bbox := { x := 790, y := 940, w := 120, h := -16 }, confidence := 1 },
       { bbox := { x := 50, y := 930, w := 600, h := 960 }, confidence := 1 }] := by
    rw [adjustSegPairs]
    rw [adjustSegPairsAux]
    norm_num [(by decide : Int.fdiv 80 2 = 40)]
    rw [adjustSegPairsAux]
    norm_num
    rw [adjustSegPairsAux]
  have hReTop : reextractSeg 2000 2000
      ({ bbox := { x := 50, y := 20, w := 600, h := 920 }, confidence := 1 } : DocumentSegment) =
      some exSegTop := by
    rw [reextractSeg]
    norm_num [max_def, min_def, exSegTop]
  have hReMid : reextractSeg 2000 2000
      ({ bbox := { x := 790, y := 940, w := 120, h := -16 }, confidence := 1 } : DocumentSegment) =
      none := by
    rw [reextractSeg]
    norm_num
  have hReBot : reextractSeg 2000 2000
      ({ bbox := { x := 50, y := 930, w := 600, h := 960 }, confidence := 1 } : DocumentSegment) =
      some exSegBottom := by
    rw [reextractSeg]
    norm_num [max_def, min_def, exSegBottom]
  have hFix : fix_overlapping_bboxes 2000 2000
      [({ bbox := { x := 50, y := 20, w := 600, h := 960 }, confidence := 1 } : DocumentSegment),
       { bbox := { x := 50, y := 930, w := 600, h := 960 }, confidence := 1 },
       { bbox := { x := 790, y := 900, w := 120, h := 24 }, confidence := 1 }] =
      [exSegTop, exSegBottom] := by
    rw [fix_overlapping_bboxes, if_neg (by norm_num), hSortY, hAdj]
    simp [hReTop, hReMid, hReBot]
  have hSA : segmentedAdjusted exDetectCfg 2000 2000
      [exContourA, exContourB, exContourC] = [exSegTop, exSegBottom] := by
    rw [segmentedAdjusted, hFrom, if_pos (by norm_num), hFix]
  constructor
  · rw [segment_documents_on_page, hSA, if_neg (by simp)]
  · decide

/-- A padded-and-clamped contour bbox always lies within the page. -/
theorem padContour_inBounds (cfg : DetectCfg) (W H : ℕ) (c : NBox) :
    bboxInBounds W H (padContour cfg W H c) := by
  simp only [padContour, bboxInBounds]
  refine ⟨?_, ?_, ?_, ?_⟩ <;> omega

/-- A segment surviving the re-extraction clamp lies within the page. -/
theorem reextractSeg_inBounds (W H : ℕ) (s s' : DocumentSegment)
    (h : reextractSeg W H s = some s') : bboxInBounds W H s'.bbox := by
  rw [reextractSeg] at h
  split_ifs at h with hc
  · simp only [Option.some.injEq] at h
    subst h
    simp only [bboxInBounds]
    refine ⟨?_, ?_, ?_, ?_⟩ <;> omega

/-- Membership through the stable-insert step. -/
theorem mem_ordInsertBy {α : Type} (precedes : α → α → Bool) (b x : α) :
    ∀ l : List α, x ∈ ordInsertBy precedes b l → x = b ∨ x ∈ l := by
  intro l
  induction l with
  | nil =>
    intro h
    simpa [ordInsertBy] using h
  | cons c cs ih =>
    intro h
    rw [ordInsertBy] at h
    split_ifs at h
    · rcases List.mem_cons.mp h with h1 | h1
      · exact Or.inl h1
      · exact Or.inr h1
    · rcases List.mem_cons.mp h with h1 | h1
      · exact Or.inr (h1 ▸ List.mem_cons_self c cs)
      · rcases ih h1 with h2 | h2
        · exact Or.inl h2
        · exact Or.inr (List.mem_cons_of_mem c h2)

/-- Membership through the stable sort. -/
theorem mem_stableSortBy {α : Type} (precedes : α → α → Bool) (x : α) :
    ∀ (l acc : List α),
      x ∈ l.foldl (fun acc b => ordInsertBy precedes b acc) acc →
      x ∈ acc ∨ x ∈ l := by
  intro l
  induction l with
  | nil =>
    intro acc h
    exact Or.inl h
  | cons c cs ih =>
    intro acc h
    rw [List.foldl_cons] at h
    rcases ih (ordInsertBy precedes c acc) h with h1 | h1
    · rcases mem_ordInsertBy precedes c x acc h1 with h2 | h2
      · exact Or.inr (h2 ▸ List.mem_cons_self c cs)
      · exact Or.inl h2
    · exact Or.inr (List.mem_cons_of_mem c h1)

/-- Every index inside a run of consRuns comes from the input list. -/
theorem consRuns_mem : ∀ (l : List ℕ), ∀ g ∈ consRuns l, ∀ i ∈ g, i ∈ l
  | [] => by simp [consRuns]
  | [x] => by simp [consRuns]
  | x :: y :: rest => by
    intro g hg i hi
    rw [consRuns] at hg
    rcases hh : consRuns (y :: rest) with _ | ⟨r, rs⟩
    · rw [hh] at hg
      simp only [List.mem_singleton] at hg
      subst hg
      simp only [List.mem_singleton] at hi
      simp [hi]
    · rw [hh] at hg
      dsimp only at hg
      by_cases hy : y = x + 1
      · rw [if_pos hy] at hg
        rcases List.mem_cons.mp hg with h | h
        · subst h
          rcases List.mem_cons.mp hi with h2 | h2
          · simp [h2]
          · have := consRuns_mem (y :: rest) r (by rw [hh]; simp) i h2
            rcases List.mem_cons.mp this with h3 | h3
            · simp [h3]
            · simp [List.mem_cons_of_mem y h3, List.mem_cons]
        · have := consRuns_mem (y :: rest) g (by rw [hh]; simp [h]) i hi
          rcases List.mem_cons.mp this with h3 | h3
          · simp [h3]
          · simp [List.mem_cons_of_mem y h3, List.mem_cons]
      · rw [if_neg hy] at hg
        rcases List.mem_cons.mp hg with h | h
        · subst h
          simp only [List.mem_singleton] at hi
          simp [hi]
        · have := consRuns_mem (y :: rest) g (by rw [hh]; exact h) i hi
          rcases List.mem_cons.mp this with h3 | h3
          · simp [h3]
          · simp [List.mem_cons_of_mem y h3, List.mem_cons]

/-- Runs of consRuns are never empty. -/
theorem consRuns_ne_nil : ∀ (l : List ℕ), ∀ g ∈ consRuns l, g ≠ []
  | [] => by simp [consRuns]
  | [x] => by simp [consRuns]
  | x :: y :: rest => by
    intro g hg
    rw [consRuns] at hg
    rcases hh : consRuns (y :: rest) with _ | ⟨r, rs⟩
    · rw [hh] at hg
      simp only [List.mem_singleton] at hg
      simp [hg]
    · rw [hh] at hg
      dsimp only at hg
      by_cases hy : y = x + 1
      · rw [if_pos hy] at hg
        rcases List.mem_cons.mp hg with h | h
        · simp [h]
        · exact consRuns_ne_nil (y :: rest) g (by rw [hh]; simp [h])
      · rw [if_neg hy] at hg
        rcases List.mem_cons.mp hg with h | h
        · simp [h]
        · exact consRuns_ne_nil (y :: rest) g (by rw [hh]; exact h)

/-- The fold behind chooseMaxBy only returns elements of the list or
the seed. -/
theorem chooseMaxBy_go_mem {α : Type} (f : α → ℕ) :
    ∀ (l : List α) (b g : α),
      l.foldl (fun acc g =>
        match acc with
        | none => some g
        | some c => if f c < f g then some g else acc) (some b) = some g →
      g = b ∨ g ∈ l := by
  intro l
  induction l with
  | nil =>
    intro b g h
    simp only [List.foldl_nil, Option.some.injEq] at h
    exact Or.inl h.symm
  | cons x l ih =>
    intro b g h
    rw [List.foldl_cons] at h
    dsimp only at h
    by_cases hlt : f b < f x
    · rw [if_pos hlt] at h
      rcases ih x g h with h1 | h1
      · exact Or.inr (h1 ▸ List.mem_cons_self x l)
      · exact Or.inr (List.mem_cons_of_mem x h1)
    · rw [if_neg hlt] at h
      rcases ih b g h with h1 | h1
      · exact Or.inl h1
      · exact Or.inr (List.mem_cons_of_mem x h1)

/-- chooseMaxBy returns an element of its input list. -/
theorem chooseMaxBy_mem {α : Type} (f : α → ℕ) (l : List α) (g : α)
    (h : chooseMaxBy f l = some g) : g ∈ l := by
  cases l with
  | nil => simp [chooseMaxBy] at h
  | cons b rest =>
    rw [chooseMaxBy, List.foldl_cons] at h
    rcases chooseMaxBy_go_mem f rest b g h with h1 | h1
    · exact h1 ▸ List.mem_cons_self b rest
    · exact List.mem_cons_of_mem b h1

/-- The projection split point stays below the page dimension. -/
theorem projectionSplit_lt (low_idx : List ℕ) (dim : ℕ) (k : ℕ)
    (hsub : ∀ i ∈ low_idx, i < dim)
    (h : projectionSplit low_idx dim = some k) : k < dim := by
  rw [projectionSplit] at h
  rcases hg : chooseMaxBy List.length (consRuns low_idx) with _ | g
  · rw [hg] at h
    dsimp only at h
    simp at h
  · rw [hg] at h
    dsimp only at h
    split_ifs at h with hgate
    simp only [Option.some.injEq] at h
    subst h
    have hmem := chooseMaxBy_mem List.length (consRuns low_idx) g hg
    have hne := consRuns_ne_nil low_idx g hmem
    have hlen : 0 < g.length := List.length_pos.mpr hne
    have hdim : 0 < dim := by
      obtain ⟨i, hi⟩ := List.exists_mem_of_ne_nil g hne
      exact lt_of_le_of_lt (Nat.zero_le i)
        (hsub i (consRuns_mem low_idx g hmem i hi))
    have hbound : ∀ i ∈ g, i ≤ dim - 1 := by
      intro i hi
      have := hsub i (consRuns_mem low_idx g hmem i hi)
      omega
    have hsum : g.sum ≤ g.length * (dim - 1) := by
      calc g.sum ≤ g.length • (dim - 1) := List.sum_le_card_nsmul g (dim - 1) hbound
      _ = g.length * (dim - 1) := by simp [smul_eq_mul]
    rw [Nat.div_lt_iff_lt_mul hlen]
    calc g.sum ≤ g.length * (dim - 1) := hsum
    _ < dim * g.length := by
      rw [mul_comm]
      exact Nat.mul_lt_mul_of_lt_of_le (by omega) (le_refl _) hlen


/-- In-bounds for the horizontal-split segment shape: full width,
vertical band ending at or before the page bottom. -/
theorem projPairsHoriz_inBounds (W H : ℕ) (pairs : List (ℕ × ℕ))
    (hp : ∀ p ∈ pairs, p.2 ≤ H) :
    ∀ s ∈ pairs.filterMap (fun p =>
      if p.2 - p.1 ≤ 10 then none
      else some ({ bbox := { x := 0, y := (p.1 : ℤ), w := (W : ℤ),
                             h := (p.2 : ℤ) - (p.1 : ℤ) }
                   confidence := (3/5 : ℚ) } : DocumentSegment)),
      bboxInBounds W H s.bbox := by
  intro s hs
  rw [List.mem_filterMap] at hs
  obtain ⟨p, hpmem, hpeq⟩ := hs
  split_ifs at hpeq
  simp only [Option.some.injEq] at hpeq
  subst hpeq
  have := hp p hpmem
  simp only [bboxInBounds]
  refine ⟨by omega, by omega, by omega, by omega⟩

/-- In-bounds for the vertical-split segment shape: full height,
horizontal band ending at or before the page right edge. -/
theorem projPairsVert_inBounds (W H : ℕ) (pairs : List (ℕ × ℕ))
    (hp : ∀ p ∈ pairs, p.2 ≤ W) :
    ∀ s ∈ pairs.filterMap (fun p =>
      if p.2 - p.1 ≤ 10 then none
      else some ({ bbox := { x := (p.1 : ℤ), y := 0,
                             w := (p.2 : ℤ) - (p.1 : ℤ), h := (H : ℤ) }
                   confidence := (3/5 : ℚ) } : DocumentSegment)),
      bboxInBounds W H s.bbox := by
  intro s hs
  rw [List.mem_filterMap] at hs
  obtain ⟨p, hpmem, hpeq⟩ := hs
  split_ifs at hpeq
  simp only [Option.some.injEq] at hpeq
  subst hpeq
  have := hp p hpmem
  simp only [bboxInBounds]
  refine ⟨by omega, by omega, by omega, by omega⟩

/-- Every segment of the horizontal projection split lies within the
page. -/
theorem horizontal_projection_inBounds (bw : List (List Bool)) (W H : ℕ) :
    ∀ s ∈ segment_by_horizontal_projection bw W H, bboxInBounds W H s.bbox := by
  intro s hs
  simp only [segment_by_horizontal_projection] at hs
  split_ifs at hs with h1 h2
  · simp at hs
  · simp at hs
  · rcases hk : projectionSplit
        ((List.range H).filter (fun i => rowSum bw i <
          max 5 (pyTrunc ((5/100 : ℚ) *
            (((List.range H).map (rowSum bw)).foldl max 0))).toNat)) H
        with _ | k
    · rw [hk] at hs
      simp at hs
    · rw [hk] at hs
      dsimp only at hs
      have hklt : k < H := by
        refine projectionSplit_lt _ H k ?_ hk
        intro i hi
        exact List.mem_range.mp (List.mem_filter.mp hi).1
      refine projPairsHoriz_inBounds W H _ ?_ s hs
      intro p hpmem
      rcases List.mem_cons.mp hpmem with h | h
      · subst h
        omega
      · rcases List.mem_cons.mp h with h3 | h3
        · subst h3
          omega
        · simp at h3

/-- Every segment of the vertical projection split lies within the
page. -/
theorem vertical_projection_inBounds (bw : List (List Bool)) (W H : ℕ) :
    ∀ s ∈ segment_by_vertical_projection bw W H, bboxInBounds W H s.bbox := by
  intro s hs
  simp only [segment_by_vertical_projection] at hs
  split_ifs at hs with h1 h2
  · simp at hs
  · simp at hs
  · rcases hk : projectionSplit
        ((List.range W).filter (fun j => colSum bw j <
          max 5 (pyTrunc ((5/100 : ℚ) *
            (((List.range W).map (colSum bw)).foldl max 0))).toNat)) W
        with _ | k
    · rw [hk] at hs
      simp at hs
    · rw [hk] at hs
      dsimp only at hs
      have hklt : k < W := by
        refine projectionSplit_lt _ W k ?_ hk
        intro j hj
        exact List.mem_range.mp (List.mem_filter.mp hj).1
      refine projPairsVert_inBounds W H _ ?_ s hs
      intro p hpmem
      rcases List.mem_cons.mp hpmem with h | h
      · subst h
        omega
      · rcases List.mem_cons.mp h with h3 | h3
        · subst h3
          omega
        · simp at h3

/-- Every segment of the edge-detection fallback lies within the
page. -/
theorem edge_detection_inBounds (cfg : DetectCfg) (W H : ℕ)
    (edge_contours : List EdgeContour) :
    ∀ s ∈ segment_with_edge_detection cfg W H edge_contours,
      bboxInBounds W H s.bbox := by
  intro s hs
  simp only [segment_with_edge_detection] at hs
  rcases mem_stableSortBy _ s _ [] hs with h | h
  · simp at h
  · rw [List.mem_filterMap] at h
    obtain ⟨c, hcmem, hceq⟩ := h
    split_ifs at hceq
    all_goals
      simp only [Option.some.injEq] at hceq
      subst hceq
      exact padContour_inBounds cfg W H _

/-- Every segment of the contour path before adjustment lies within
the page. -/
theorem segmentedFromContours_inBounds (cfg : DetectCfg) (W H : ℕ)
    (contours : List CtContour) :
    ∀ s ∈ segmentedFromContours cfg W H contours, bboxInBounds W H s.bbox := by
  intro s hs
  rw [segmentedFromContours, List.mem_map] at hs
  obtain ⟨c, hcmem, hceq⟩ := hs
  subst hceq
  exact padContour_inBounds cfg W H c

/-- Every segment of the contour path after the overlap-adjustment
pass lies within the page. -/
theorem segmentedAdjusted_inBounds (cfg : DetectCfg) (W H : ℕ)
    (contours : List CtContour) :
    ∀ s ∈ segmentedAdjusted cfg W H contours, bboxInBounds W H s.bbox := by
  intro s hs
  rw [segmentedAdjusted] at hs
  split_ifs at hs with hlen
  · rw [fix_overlapping_bboxes] at hs
    split_ifs at hs with hshort
    · exact segmentedFromContours_inBounds cfg W H contours s hs
    · rw [List.mem_filterMap] at hs
      obtain ⟨t, htmem, hteq⟩ := hs
      exact reextractSeg_inBounds W H t s hteq
  · exact segmentedFromContours_inBounds cfg W H contours s hs

/-- Two segments whose y-intervals are separated (the first ends at
or above the second's top) stay non-overlapping after the
re-extraction clamp, provided both lie within the page vertically. -/
theorem reextract_disjoint (W H : ℕ) (a b a' b' : DocumentSegment)
    (h0a : 0 ≤ a.bbox.y) (hHa : a.bbox.y + a.bbox.h ≤ (H : ℤ))
    (h0b : 0 ≤ b.bbox.y) (hHb : b.bbox.y + b.bbox.h ≤ (H : ℤ))
    (hsep : a.bbox.y + a.bbox.h ≤ b.bbox.y)
    (ha : reextractSeg W H a = some a') (hb : reextractSeg W H b = some b') :
    boxesOverlap a'.bbox b'.bbox = false := by
  rw [reextractSeg] at ha hb
  split_ifs at ha hb with hca hcb
  simp only [Option.some.injEq] at ha hb
  subst ha
  subst hb
  simp only [boxesOverlap, Bool.and_eq_false_iff, decide_eq_false_iff_not,
    not_lt]
  right
  omega

/-- Pairwise non-overlap of a two-element re-extraction, given the
only possible surviving pair is disjoint. -/
theorem reextract_pair_pairwise (W H : ℕ) (a b : DocumentSegment)
    (hdis : ∀ a' b', reextractSeg W H a = some a' →
      reextractSeg W H b = some b' → boxesOverlap a'.bbox b'.bbox = false) :
    (List.filterMap (reextractSeg W H) [a, b]).Pairwise
      (fun x y => boxesOverlap x.bbox y.bbox = false) := by
  rcases ha : reextractSeg W H a with _ | a1
  · rcases hb : reextractSeg W H b with _ | b1
    · simp only [List.filterMap_cons, List.filterMap_nil, ha, hb]
      exact List.Pairwise.nil
    · simp only [List.filterMap_cons, List.filterMap_nil, ha, hb]
      exact List.pairwise_singleton _ _
  · rcases hb : reextractSeg W H b with _ | b1
    · simp only [List.filterMap_cons, List.filterMap_nil, ha, hb]
      exact List.pairwise_singleton _ _
    · simp only [List.filterMap_cons, List.filterMap_nil, ha, hb]
      refine List.Pairwise.cons ?_ (List.pairwise_singleton _ _)
      intro y hy
      rw [List.mem_singleton] at hy
      rw [hy]
      exact hdis a1 b1 ha hb

/-- The adjustment-then-re-extraction of a y-ordered pair of
segments within the page yields pairwise non-overlapping segments. -/
theorem fix_two_ordered (W H : ℕ) (a b : DocumentSegment)
    (h0a : 0 ≤ a.bbox.y) (hHa : a.bbox.y + a.bbox.h ≤ (H : ℤ))
    (h0b : 0 ≤ b.bbox.y) (hHb : b.bbox.y + b.bbox.h ≤ (H : ℤ))
    (hab : a.bbox.y ≤ b.bbox.y) :
    ((adjustSegPairs [a, b]).filterMap (reextractSeg W H)).Pairwise
      (fun x y => boxesOverlap x.bbox y.bbox = false) := by
  rw [adjustSegPairs]
  simp only [adjustSegPairsAux]
  by_cases hov : b.bbox.y < a.bbox.y + a.bbox.h
  · rw [if_pos hov]
    have hfd : (a.bbox.y + a.bbox.h - b.bbox.y).fdiv 2 =
        (a.bbox.y + a.bbox.h - b.bbox.y) / 2 :=
      Int.fdiv_eq_ediv _ (by norm_num)
    apply reextract_pair_pairwise
    intro a1 b1 ha hb
    refine reextract_disjoint W H _ _ a1 b1 ?_ ?_ ?_ ?_ ?_ ha hb <;>
      · dsimp only
        try rw [hfd]
        omega
  · rw [if_neg hov]
    apply reextract_pair_pairwise
    intro a1 b1 ha hb
    exact reextract_disjoint W H a b a1 b1 h0a hHa h0b hHb (not_lt.mp hov) ha hb

/-- The overlap-adjustment pass on exactly two in-page segments
returns pairwise non-overlapping segments. -/
theorem fix_two_disjoint (W H : ℕ) (s1 s2 : DocumentSegment)
    (h01 : 0 ≤ s1.bbox.y) (hH1 : s1.bbox.y + s1.bbox.h ≤ (H : ℤ))
    (h02 : 0 ≤ s2.bbox.y) (hH2 : s2.bbox.y + s2.bbox.h ≤ (H : ℤ)) :
    (fix_overlapping_bboxes W H [s1, s2]).Pairwise
      (fun x y => boxesOverlap x.bbox y.bbox = false) := by
  rw [fix_overlapping_bboxes, if_neg (by simp)]
  by_cases hlt : s2.bbox.y < s1.bbox.y
  · have hsort : stableSortBy (fun a b => a.bbox.y < b.bbox.y) [s1, s2] =
        [s2, s1] := by
      simp [stableSortBy, ordInsertBy, hlt]
    rw [hsort]
    exact fix_two_ordered W H s2 s1 h02 hH2 h01 hH1 (le_of_lt hlt)
  · have hsort : stableSortBy (fun a b => a.bbox.y < b.bbox.y) [s1, s2] =
        [s1, s2] := by
      simp [stableSortBy, ordInsertBy, hlt]
    rw [hsort]
    exact fix_two_ordered W H s1 s2 h01 hH1 h02 hH2 (not_lt.mp hlt)

/-- C4 amended.  Every segment returned by segment_documents_on_page
has its bbox within the page bounds, on every path (contour,
adjusted, projection splits, edge fallback, whole page); and the
overlap-adjustment pass applied to exactly two segments lying within
the page vertically returns pairwise non-overlapping segments —
while padded contour boxes always satisfy those vertical bounds.
(With three or more segments the pass can drop a middle segment and
leave two overlapping ones, and the projection/edge fallbacks bypass
the pass, so the pairwise invariant does not hold in general.) -/
theorem c4_amended_bounds_and_two_segment_disjoint :
    (∀ (cfg : DetectCfg) (W H : ℕ) (contours : List CtContour)
        (bw : List (List Bool)) (edge_contours : List EdgeContour)
        (segs : List DocumentSegment),
      segment_documents_on_page cfg W H contours bw edge_contours =
        Except.ok segs →
      ∀ s ∈ segs, bboxInBounds W H s.bbox) ∧
      (∀ (W H : ℕ) (s1 s2 : DocumentSegment),
        0 ≤ s1.bbox.y → s1.bbox.y + s1.bbox.h ≤ (H : ℤ) →
        0 ≤ s2.bbox.y → s2.bbox.y + s2.bbox.h ≤ (H : ℤ) →
        (fix_overlapping_bboxes W H [s1, s2]).Pairwise
          (fun x y => boxesOverlap x.bbox y.bbox = false)) ∧
      (∀ (cfg : DetectCfg) (W H : ℕ) (c : NBox),
        0 ≤ (padContour cfg W H c).y ∧
          (padContour cfg W H c).y + (padContour cfg W H c).h ≤ (H : ℤ)) := by
  refine ⟨?_, fix_two_disjoint, ?_⟩
  · intro cfg W H contours bw edge_contours segs hok s hs
    rw [segment_documents_on_page] at hok
    by_cases hsa : segmentedAdjusted cfg W H contours = []
    · rw [if_pos hsa] at hok
      rcases hh : segment_by_horizontal_projection bw W H with _ | ⟨s0, ss⟩
      · rw [hh] at hok
        rcases hv : segment_by_vertical_projection bw W H with _ | ⟨t0, ts⟩
        · rw [hv] at hok
          by_cases hct : contours = []
          · rw [if_pos hct] at hok
            exact absurd hok (by simp)
          · rw [if_neg hct] at hok
            rcases he : segment_with_edge_detection cfg W H edge_contours
                with _ | ⟨e0, es⟩
            · rw [he] at hok
              simp only [Except.ok.injEq] at hok
              subst hok
              rw [List.mem_singleton] at hs
              subst hs
              simp only [bboxInBounds]
              refine ⟨le_refl _, le_refl _, by omega, by omega⟩
            · rw [he] at hok
              simp only [Except.ok.injEq] at hok
              subst hok
              exact edge_detection_inBounds cfg W H edge_contours s (he ▸ hs)
        · rw [hv] at hok
          simp only [Except.ok.injEq] at hok
          subst hok
          exact vertical_projection_inBounds bw W H s (hv ▸ hs)
      · rw [hh] at hok
        simp only [Except.ok.injEq] at hok
        subst hok
        exact horizontal_projection_inBounds bw W H s (hh ▸ hs)
    · rw [if_neg hsa] at hok
      simp only [Except.ok.injEq] at hok
      subst hok
      exact segmentedAdjusted_inBounds cfg W H contours s hs
  · intro cfg W H c
    have h := padContour_inBounds cfg W H c
    exact ⟨h.2.1, h.2.2.2⟩

/-- Witness for C4: a single-contour page goes through the contour
path and stays in bounds; a concrete two-segment fix is pairwise
non-overlapping; a concrete padded contour satisfies the vertical
bounds. -/
theorem c4_witness :
    (∀ s ∈ [({ bbox := { x := 50, y := 20, w := 600, h := 960 },
               confidence := 1 } : DocumentSegment)],
      bboxInBounds 2000 2000 s.bbox) ∧
      (fix_overlapping_bboxes 100 100
        [({ bbox := { x := 0, y := 0, w := 30, h := 30 }, confidence := 1 } :
            DocumentSegment),
         { bbox := { x := 0, y := 25, w := 30, h := 30 }, confidence := 1 }]).Pairwise
        (fun x y => boxesOverlap x.bbox y.bbox = false) ∧
      (0 ≤ (padContour exDetectCfg 2000 2000
          { x := 100, y := 100, w := 500, h := 800 }).y ∧
        (padContour exDetectCfg 2000 2000
            { x := 100, y := 100, w := 500, h := 800 }).y +
          (padContour exDetectCfg 2000 2000
            { x := 100, y := 100, w := 500, h := 800 }).h ≤ (2000 : ℤ)) := by
  refine ⟨?_, ?_, ?_⟩
  · have hPadA : padContour exDetectCfg 2000 2000
        { x := 100, y := 100, w := 500, h := 800 } =
        { x := 50, y := 20, w := 600, h := 960 } := by
      rw [padContour]
      rw [show ((({ x := 100, y := 100, w := 500, h := 800 } : NBox).w : ℚ) *
          (exDetectCfg.padding_percent / 100)) = ((50 : ℤ) : ℚ) by
        norm_num [exDetectCfg]]
      rw [show ((({ x := 100, y := 100, w := 500, h := 800 } : NBox).h : ℚ) *
          (exDetectCfg.padding_percent / 100)) = ((80 : ℤ) : ℚ) by
        norm_num [exDetectCfg]]
      rw [pyTrunc_intCast, pyTrunc_intCast]
      norm_num [max_def, min_def]
    have hCand1 : contourCandidates exDetectCfg 2000 2000 [exContourA] =
        [{ x := 100, y := 100, w := 500, h := 800 }] := by
      rw [contourCandidates]
      norm_num [exDetectCfg, exContourA, List.filterMap_cons, List.filterMap_nil]
    have hFrom1 : segmentedFromContours exDetectCfg 2000 2000 [exContourA] =
        [{ bbox := { x := 50, y := 20, w := 600, h := 960 }, confidence := 1 }] := by
      rw [segmentedFromContours, hCand1]
      rw [show stableSortBy (fun a b => a.x < b.x)
          [({ x := 100, y := 100, w := 500, h := 800 } : NBox)] =
          [{ x := 100, y := 100, w := 500, h := 800 }] from by decide]
      rw [remove_overlapping_contours, if_pos (by decide)]
      simp [hPadA]
    have hok : segment_documents_on_page exDetectCfg 2000 2000 [exContourA] [] [] =
        Except.ok [({ bbox := { x := 50, y := 20, w := 600, h := 960 }, confidence := 1 } : DocumentSegment)] := by
      have hSA1 : segmentedAdjusted exDetectCfg 2000 2000 [exContourA] =
          [{ bbox := { x := 50, y := 20, w := 600, h := 960 }, confidence := 1 }] := by
        rw [segmentedAdjusted, hFrom1]
        norm_num
      rw [segment_documents_on_page, hSA1, if_neg (by simp)]
    exact c4_amended_bounds_and_two_segment_disjoint.1 exDetectCfg 2000 2000
      [exContourA] [] [] _ hok
  · exact c4_amended_bounds_and_two_segment_disjoint.2.1 100 100 _ _
      (by norm_num) (by norm_num) (by norm_num) (by norm_num)
  · exact c4_amended_bounds_and_two_segment_disjoint.2.2 exDetectCfg 2000 2000 _
